import Mathlib

/-!
# Verification of the studiotoolkit color-palette core

This file is a shallow embedding, in Lean 4, of the color-math and
palette-generation layer of the `studiotoolkit` repository, together with
theorems settling the specification claims about it.

Modelling conventions, used consistently below:

* JavaScript numbers are modelled by `ℚ` with exact arithmetic.  Decimal
  literals of the source are read as exact rationals.  The transcendental
  `Math.*` primitives of JavaScript (`cbrt`, `sqrt`, `pow`, `sin`, `cos`,
  `atan2`, `exp`) and the number-printing primitives have no exact rational
  realisation; they are abstracted as the fields of a `JsMath` parameter
  structure, and every theorem below is proved for *every* interpretation of
  those fields, hence in particular for the IEEE-754 one.  `Math.PI` is the
  field `pi` (a fixed rational in the canonical instance — the exact value of
  the double `Math.PI`).
* `Math.random()` is impure; functions that consume it take an explicit
  stream `rand : ℕ → ℚ` and draw successive values at successive indices in
  the exact order the source consumes them.
* JavaScript `Array.prototype.sort` with a numeric comparator is a stable
  sort; `jsSortBy le` below is a stable insertion sort with
  `le a b ⟺ comparator a b ≤ 0`, which yields the same list as any stable
  sort for a total comparator.
* `throw` is modelled by `Except`; JavaScript dictionaries by ordered
  association lists (the `Object.entries` view).
-/

/-- The JavaScript `Math` primitives (and number printing) that have no exact
rational realisation, abstracted as parameters.  All theorems below hold for
every interpretation of these fields. -/
structure JsMath where
  cbrt : ℚ → ℚ
  sqrt : ℚ → ℚ
  powf : ℚ → ℚ → ℚ
  exp : ℚ → ℚ
  cos : ℚ → ℚ
  sin : ℚ → ℚ
  atan2 : ℚ → ℚ → ℚ
  pi : ℚ
  numToString : ℚ → String
  round2 : ℚ → ℚ

/-- Canonical instance used to evaluate witnesses.  The function fields are
arbitrary (theorems are interpretation-independent); `pi` is the exact value
of the IEEE-754 double `Math.PI`. -/
def jsM0 : JsMath where
  cbrt := fun _ => 0
  sqrt := fun _ => 0
  powf := fun _ _ => 0
  exp := fun _ => 0
  cos := fun _ => 0
  sin := fun _ => 0
  atan2 := fun _ _ => 0
  pi := 884279719003555 / 281474976710656
  numToString := fun _ => "?"
  round2 := fun q => q

/-- Truncation toward zero, as JavaScript's implicit integer conversion. -/
def qTrunc (q : ℚ) : ℤ := if 0 ≤ q then q.floor else -((-q).floor)

/-- JavaScript `%` on numbers: remainder with the sign of the dividend. -/
def jsMod (a b : ℚ) : ℚ := a - b * (qTrunc (a / b) : ℚ)

/-- JavaScript `Math.floor`. -/
def jsFloor (q : ℚ) : ℤ := q.floor

/-- JavaScript `Math.round` (half toward `+∞`). -/
def jsRound (q : ℚ) : ℤ := (q + 1/2).floor

/-- JavaScript `Array.from({length: n}, (_, i) => f i)`. -/
def arrayFrom (n : ℕ) (f : ℕ → α) : List α := (List.range n).map f

/-- Stable insertion of `x` into a list: `x` goes after every `y` with
`le y x` (comparator `cmp y x ≤ 0`). -/
def insertStable (le : α → α → Bool) (x : α) : List α → List α
  | [] => [x]
  | y :: ys => if le y x then y :: insertStable le x ys else x :: y :: ys

/-- Stable sort, modelling `Array.prototype.sort(cmp)` with
`le a b ⟺ cmp a b ≤ 0`. -/
def jsSortBy (le : α → α → Bool) (l : List α) : List α :=
  l.foldl (fun acc x => insertStable le x acc) []

/-- Lowercase hex digit of `n < 16` (JavaScript `Number.prototype.toString(16)`
digit alphabet). -/
def hexDigitChar (n : ℕ) : Char :=
  match n with
  | 0 => '0' | 1 => '1' | 2 => '2' | 3 => '3' | 4 => '4'
  | 5 => '5' | 6 => '6' | 7 => '7' | 8 => '8' | 9 => '9'
  | 10 => 'a' | 11 => 'b' | 12 => 'c' | 13 => 'd' | 14 => 'e' | 15 => 'f'
  | _ => '0'

/-- Two-digit lowercase hex of a byte: models
`n.toString(16).padStart(2, "0")` for `n ≤ 255` (the only values the sources
feed it). -/
def byteToHexStr (n : ℕ) : List Char := [hexDigitChar (n / 16), hexDigitChar (n % 16)]

/-- Numeric value of a hex digit character, or `none` (JavaScript `parseInt`
of a non-digit yields `NaN`). -/
def hexDigitVal (c : Char) : Option ℕ :=
  if '0' ≤ c ∧ c ≤ '9' then some (c.toNat - '0'.toNat)
  else if 'a' ≤ c ∧ c ≤ 'f' then some (c.toNat - 'a'.toNat + 10)
  else if 'A' ≤ c ∧ c ≤ 'F' then some (c.toNat - 'A'.toNat + 10)
  else none

/-- Value of a two-hex-digit substring, defaulting to `0` on a non-digit
(callers below only apply it to validated hex strings). -/
def hexPairVal (c1 c2 : Char) : ℕ :=
  16 * ((hexDigitVal c1).getD 0) + (hexDigitVal c2).getD 0

/-- ASCII lowercasing of one character, as JavaScript `toLowerCase` acts on
the ASCII range (the only range the sources care about). -/
def jsToLower (c : Char) : Char :=
  if 'A' ≤ c ∧ c ≤ 'Z' then Char.ofNat (c.toNat + 32) else c

/-- ASCII whitespace test, for `String.prototype.trim`. -/
def isJsSpace (c : Char) : Bool :=
  c = ' ' ∨ c = '\t' ∨ c = '\n' ∨ c = '\r' ∨ c = '\x0b' ∨ c = '\x0c'

/-- `String.prototype.trim` on the character list. -/
def jsTrim (cs : List Char) : List Char :=
  ((cs.dropWhile isJsSpace).reverse.dropWhile isJsSpace).reverse

/-- Is `c` a lowercase hex digit `0-9a-f`? -/
def isHexLowerDigit (c : Char) : Bool :=
  ('0' ≤ c ∧ c ≤ '9') ∨ ('a' ≤ c ∧ c ≤ 'f')

/-- Is `c` a hex digit of either case `0-9a-fA-F`? -/
def isHexDigitAnyCase (c : Char) : Bool :=
  ('0' ≤ c ∧ c ≤ '9') ∨ ('a' ≤ c ∧ c ≤ 'f') ∨ ('A' ≤ c ∧ c ≤ 'F')

namespace Radium

/-! ## `RadiumGenerator.ts` — semantic-token generator and the shared
OKLab/OKLCH machinery (including the gamut-safe encoder `lchToHexSafe`). -/

structure RGB where
  r : ℚ
  g : ℚ
  b : ℚ
deriving DecidableEq, Repr, Inhabited

structure Lab where
  L : ℚ
  a : ℚ
  b : ℚ
deriving DecidableEq, Repr, Inhabited

structure LCH where
  L : ℚ
  C : ℚ
  H : ℚ
deriving DecidableEq, Repr, Inhabited

def linearize (M : JsMath) (c : ℚ) : ℚ :=
  if c ≤ 0.04045 then c / 12.92 else M.powf ((c + 0.055) / 1.055) 2.4

def delinearize (M : JsMath) (c : ℚ) : ℚ :=
  if c ≤ 0.0031308 then 12.92 * c else 1.055 * M.powf c (1/2.4) - 0.055

def clamp01 (v : ℚ) : ℚ := max 0 (min 1 v)

def lerp (a b t : ℚ) : ℚ := a + (b - a) * t

/-- `hexToRgb01` reads the three byte pairs of a `"#rrggbb"` string. -/
def hexToRgb01 (hex : String) : RGB :=
  let cs := hex.toList
  { r := (hexPairVal (cs.getD 1 '0') (cs.getD 2 '0') : ℚ) / 255
    g := (hexPairVal (cs.getD 3 '0') (cs.getD 4 '0') : ℚ) / 255
    b := (hexPairVal (cs.getD 5 '0') (cs.getD 6 '0') : ℚ) / 255 }

/-- `rgbToHex`: clamp each channel, scale to a byte, round, print. -/
def rgbToHex (c : RGB) : String :=
  let f := fun (v : ℚ) => byteToHexStr (jsRound (clamp01 v * 255)).toNat
  String.mk ('#' :: (f c.r ++ f c.g ++ f c.b))

def rgbToOklab (M : JsMath) (c : RGB) : Lab :=
  let lr := linearize M c.r
  let lg := linearize M c.g
  let lb := linearize M c.b
  let l := M.cbrt (0.4122214708 * lr + 0.5363325363 * lg + 0.0514459929 * lb)
  let m := M.cbrt (0.2119034982 * lr + 0.6806995451 * lg + 0.1073969566 * lb)
  let s := M.cbrt (0.0883024619 * lr + 0.2817188376 * lg + 0.6299787005 * lb)
  { L := 0.2104542553 * l + 0.793617785 * m - 0.0040720468 * s
    a := 1.9779984951 * l - 2.428592205 * m + 0.4505937099 * s
    b := 0.0259040371 * l + 0.7827717662 * m - 0.808675766 * s }

/-- OKLab → linear-sRGB, unclipped: channels may leave `[0,1]` out of gamut. -/
def oklabToRgbRaw (M : JsMath) (lab : Lab) : RGB :=
  let l := lab.L + 0.3963377774 * lab.a + 0.2158037573 * lab.b
  let m := lab.L - 0.1055613458 * lab.a - 0.0638541728 * lab.b
  let s := lab.L - 0.0894841775 * lab.a - 1.291485548 * lab.b
  let l3 := l * l * l
  let m3 := m * m * m
  let s3 := s * s * s
  { r := delinearize M (4.0767416621 * l3 - 3.3077115913 * m3 + 0.2309699292 * s3)
    g := delinearize M (-1.2684380046 * l3 + 2.6097574011 * m3 - 0.3413193965 * s3)
    b := delinearize M (-0.0041960863 * l3 - 0.7034186147 * m3 + 1.707614701 * s3) }

/-- OKLab → sRGB clamped to `[0,1]`. -/
def oklabToRgb (M : JsMath) (lab : Lab) : RGB :=
  let c := oklabToRgbRaw M lab
  { r := clamp01 c.r, g := clamp01 c.g, b := clamp01 c.b }

def oklabToOklch (M : JsMath) (lab : Lab) : LCH :=
  { L := lab.L
    C := M.sqrt (lab.a * lab.a + lab.b * lab.b)
    H := jsMod (M.atan2 lab.b lab.a * 180 / M.pi + 360) 360 }

def oklchToOklab (M : JsMath) (lch : LCH) : Lab :=
  { L := lch.L
    a := lch.C * M.cos (lch.H * M.pi / 180)
    b := lch.C * M.sin (lch.H * M.pi / 180) }

def hexToLch (M : JsMath) (hex : String) : LCH :=
  oklabToOklch M (rgbToOklab M (hexToRgb01 hex))

/-- The unclipped gamut test of `lchToHexSafe`. -/
def inGamut (c : RGB) : Bool :=
  -0.001 ≤ c.r ∧ c.r ≤ 1.001 ∧ -0.001 ≤ c.g ∧ c.g ≤ 1.001 ∧
    -0.001 ≤ c.b ∧ c.b ≤ 1.001

/-- One chroma binary-search step of `lchToHexSafe`:
keep `mid` as the new `lo` when in gamut, else as the new `hi`. -/
def gamutStep (M : JsMath) (lch : LCH) (p : ℚ × ℚ) : ℚ × ℚ :=
  let mid := (p.1 + p.2) / 2
  if inGamut (oklabToRgbRaw M (oklchToOklab M { lch with C := mid })) then (mid, p.2)
  else (p.1, mid)

/-- Gamut-safe encoding: direct fast path when the raw conversion is inside
`[-0.001, 1.001]` on all channels, otherwise a 24-iteration binary search on
chroma in `[0, C]`; `L` and `H` are never modified. -/
def lchToHexSafe (M : JsMath) (lch : LCH) : String :=
  let direct := oklabToRgbRaw M (oklchToOklab M lch)
  if inGamut direct then rgbToHex (oklabToRgb M (oklchToOklab M lch))
  else
    let p := (List.range 24).foldl (fun p _ => gamutStep M lch p) (0, lch.C)
    rgbToHex (oklabToRgb M (oklchToOklab M { lch with C := p.1 }))

/-- `key.includes(pat)` on normalised keys. -/
def strIncludes (s pat : String) : Bool :=
  (s.toList.tails.any fun t => pat.toList.isPrefixOf t)

/-- `HARMONY_OFFSETS` — normalised key names → canonical hue-rotation sets. -/
def HARMONY_OFFSETS : List (String × List ℚ) :=
  [ ("harmonypalette", [0, 150, 210])
  , ("analogous", [-30, 0, 30])
  , ("complementary", [0, 180])
  , ("splitcomplementary", [0, 150, 210])
  , ("triadic", [0, 120, 240])
  , ("tetradic", [0, 60, 180, 240])
  , ("square", [0, 90, 180, 270])
  , ("accentedanalogous", [-30, 0, 30, 180])
  , ("doublesplitcomplementary", [0, 30, 150, 180, 210, 330])
  , ("ambiguous", [15, 135, 255]) ]

/-- One entry of `SEMANTIC_TRANSFORMS`: a match predicate on the normalised
key plus an LCH transform (`match` is a Lean keyword, hence `matchKey`). -/
structure SemanticTransform where
  matchKey : String → Bool
  apply : LCH → LCH

/-- `SEMANTIC_TRANSFORMS` — ordered, most specific fragment first. -/
def SEMANTIC_TRANSFORMS : List SemanticTransform :=
  [ { matchKey := fun k => strIncludes k "neutrallight" ∨
        (strIncludes k "neutral" ∧ strIncludes k "light")
    , apply := fun lch => { lch with L := 0.93, C := min (lch.C * 0.08) 0.015 } }
  , { matchKey := fun k => strIncludes k "neutraldark" ∨
        (strIncludes k "neutral" ∧ strIncludes k "dark")
    , apply := fun lch => { lch with L := 0.1, C := min (lch.C * 0.08) 0.015 } }
  , { matchKey := fun k => strIncludes k "neutral"
    , apply := fun lch => { lch with L := 0.55, C := min (lch.C * 0.06) 0.012 } }
  , { matchKey := fun k => k.endsWith "shade" ∨ strIncludes k "colorshade"
    , apply := fun lch => { lch with L := 0.3, C := lch.C } }
  , { matchKey := fun k => k.endsWith "dark"
    , apply := fun lch => { lch with L := 0.22, C := lch.C } }
  , { matchKey := fun k => k.endsWith "light" ∨ k.endsWith "tint"
    , apply := fun lch => { lch with L := 0.88, C := lch.C * 0.5 } }
  , { matchKey := fun k => k.startsWith "accent"
    , apply := fun lch => { lch with L := 0.62, C := max lch.C 0.22 } }
  , { matchKey := fun k =>
        k.startsWith "main" ∨ k.startsWith "primary" ∨ k.startsWith "brand"
    , apply := fun lch => { lch with L := 0.52, C := max lch.C 0.22 } }
  , { matchKey := fun k => k.startsWith "background" ∨ k.startsWith "bg"
    , apply := fun lch => { lch with L := 0.97, C := min (lch.C * 0.08) 0.012 } }
  , { matchKey := fun k => k.startsWith "surface"
    , apply := fun lch => { lch with L := 0.91, C := min (lch.C * 0.18) 0.025 } }
  , { matchKey := fun k =>
        k.startsWith "foreground" ∨ k.startsWith "text" ∨ k.startsWith "on"
    , apply := fun lch => { lch with L := 0.18, C := min (lch.C * 0.12) 0.02 } } ]

/-- Cycle a fixed offset list into exactly `n` swatches. -/
def buildFromOffsets (M : JsMath) (lch : LCH) (offsets : List ℚ) (n : ℕ) : List String :=
  arrayFrom n fun i =>
    let deg := offsets.getD (i % offsets.length) 0
    let extraShift := (i / offsets.length : ℕ) * (0.08 : ℚ)
    lchToHexSafe M
      { lch with L := clamp01 (lch.L - extraShift), H := jsMod (lch.H + deg + 360) 360 }

/-- Evenly-spaced hues covering the wheel. -/
def buildEvenlySpaced (M : JsMath) (lch : LCH) (n : ℕ) : List String :=
  arrayFrom n fun i =>
    lchToHexSafe M { lch with H := jsMod (lch.H + (360 / n) * i) 360 }

/-- Continuous dark → light ramp, chroma eased at the extremes.
The exponent `2.5` applied to `|t − 0.45|` is the abstract `powf`. -/
def buildMonochromaticRamp (M : JsMath) (lch : LCH) (n : ℕ) : List String :=
  arrayFrom n fun i =>
    let t : ℚ := (i : ℚ) / max (n - 1 : ℤ) 1
    let L := lerp 0.12 0.94 t
    let C := lch.C * clamp01 (1 - M.powf |t - 0.45| 2.5)
    lchToHexSafe M { L := L, C := C, H := lch.H }

/-- Tint-shade ramp with a power-curve lightness. -/
def buildTintShadeRamp (M : JsMath) (lch : LCH) (n : ℕ) : List String :=
  arrayFrom n fun i =>
    let t : ℚ := (i : ℚ) / max (n - 1 : ℤ) 1
    let tCurved := if t < 0.5 then 0.5 * M.powf (t * 2) 1.6
      else 1 - 0.5 * M.powf ((1 - t) * 2) 1.4
    let L := lerp 0.1 0.96 tCurved
    let C := lch.C * clamp01 (1 - M.powf ((t - 0.4) / 0.7) 2 * 0.6)
    lchToHexSafe M { L := L, C := C, H := lch.H }

/-- Key normalisation: lowercase, strip non-letters. -/
def normaliseKey (key : String) : String :=
  String.mk ((key.toList.map jsToLower).filter fun c => decide ('a' ≤ c ∧ c ≤ 'z'))

/-- `generatePalette` — builds the swatches for one key (resolution order as
in the source: multi-swatch ramps and harmonies, then the semantic-transform
table, then the vivid mid-tone fallback). -/
def generatePalette (M : JsMath) (key : String) (lch : LCH) (n : ℕ) : List String :=
  let k := normaliseKey key
  if 1 < n then
    if strIncludes k "tintshade" then buildTintShadeRamp M lch n
    else if strIncludes k "monochromatic" then buildMonochromaticRamp M lch n
    else if strIncludes k "tint" ∨ strIncludes k "shade" then buildTintShadeRamp M lch n
    else match (HARMONY_OFFSETS.find? fun e => e.1 = k) with
      | some e => buildFromOffsets M lch e.2 n
      | none => buildEvenlySpaced M lch n
  else
    match SEMANTIC_TRANSFORMS.find? (fun t => t.matchKey k) with
    | some t => [lchToHexSafe M (t.apply lch)]
    | none => [lchToHexSafe M { lch with L := 0.55, C := max lch.C 0.18 }]

/-- `HEX_RE` — exactly `#` followed by six hex digits of either case. -/
def hexRETest (s : String) : Bool :=
  match s.toList with
  | '#' :: cs => cs.length = 6 ∧ cs.all isHexDigitAnyCase
  | _ => false

/-- First valid 6-digit hex of an array, else `"#ff0000"`. -/
def extractColorFromArray (colors : List String) : String :=
  (colors.find? hexRETest).getD "#ff0000"

/-- `generateRadiumColors` — per key, derive the base from the key's own
first valid hex and rebuild an array of the same length.  The association
list is the `Object.entries` view of the input object. -/
def generateRadiumColors (M : JsMath) (input : List (String × List String)) :
    List (String × List String) :=
  input.map fun e =>
    let base := extractColorFromArray e.2
    let lch := hexToLch M base
    (e.1, generatePalette M e.1 lch e.2.length)

end Radium

namespace Sel

/-! ## `select60-30-10.ts` — 60/30/10 role selection.

JavaScript dynamic values reaching the public API are modelled by `JsValue`;
`throw` is modelled by `Except JsErr`. -/

/-- The JavaScript values relevant to the API surface. -/
inductive JsValue where
  | str (s : String)
  | num (q : ℚ)
  | bool (b : Bool)
  | null
  | undef
  | arr (elems : List JsValue)

/-- `typeof`. -/
def typeofName : JsValue → String
  | .str _ => "string"
  | .num _ => "number"
  | .bool _ => "boolean"
  | .null => "object"
  | .undef => "undefined"
  | .arr _ => "object"

mutual

/-- `JSON.stringify`, for the validation error message (string escaping of
exotic characters is not modelled; `undefined` stringifies to `undefined`
inside a template literal). -/
def jsonStringify (M : JsMath) : JsValue → String
  | .str s => "\"" ++ s ++ "\""
  | .num q => M.numToString q
  | .bool b => if b then "true" else "false"
  | .null => "null"
  | .undef => "undefined"
  | .arr es => "[" ++ String.intercalate "," (jsonStringifyList M es) ++ "]"

/-- Stringify each element of an array value. -/
def jsonStringifyList (M : JsMath) : List JsValue → List String
  | [] => []
  | v :: vs => jsonStringify M v :: jsonStringifyList M vs

end

/-- The two error classes thrown by this module. -/
inductive JsErr where
  | typeError (msg : String)
  | rangeError (msg : String)
deriving DecidableEq, Repr

structure LCH where
  L : ℚ
  C : ℚ
  H : ℚ
deriving DecidableEq, Repr, Inhabited

structure ColorRole where
  hex : String
  role : String
  label : String
  weight : String
  lch : LCH
  derived : Bool
  textColor : String
  contrast : ℚ
deriving DecidableEq, Repr

structure RuleResult where
  neutralLight : ColorRole
  neutralDark : ColorRole
  mainColor : ColorRole
  mainColorShade : ColorRole
  accentColor : ColorRole
deriving DecidableEq, Repr

/-- `SelectOptions` (TypeScript optional fields become `Option`). -/
structure SelectOptions where
  neutralChromaMax : Option ℚ := none
  mainLightnessMin : Option ℚ := none
  mainLightnessMax : Option ℚ := none
  shadeHueTolerance : Option ℚ := none
  accentHueMin : Option ℚ := none
  derivedDarkL : Option ℚ := none
  derivedDarkC : Option ℚ := none

structure InternalColor where
  hex : String
  lch : LCH
deriving DecidableEq, Repr

def lin (M : JsMath) (c : ℚ) : ℚ :=
  if c ≤ 0.04045 then c / 12.92 else M.powf ((c + 0.055) / 1.055) 2.4

def delin (M : JsMath) (c : ℚ) : ℚ :=
  if c ≤ 0.0031308 then 12.92 * c else 1.055 * M.powf c (1/2.4) - 0.055

def clampV (v : ℚ) : ℚ := if v < 0 then 0 else if 1 < v then 1 else v

structure OkLab where
  L : ℚ
  a : ℚ
  b : ℚ
deriving DecidableEq, Repr

def rgbToOklab (M : JsMath) (r g b : ℚ) : OkLab :=
  let lr := lin M r
  let lg := lin M g
  let lb := lin M b
  let l := M.cbrt (0.4122214708 * lr + 0.5363325363 * lg + 0.0514459929 * lb)
  let m := M.cbrt (0.2119034982 * lr + 0.6806995451 * lg + 0.1073969566 * lb)
  let s := M.cbrt (0.0883024619 * lr + 0.2817188376 * lg + 0.6299787005 * lb)
  { L := 0.2104542553 * l + 0.793617785 * m - 0.0040720468 * s
    a := 1.9779984951 * l - 2.428592205 * m + 0.4505937099 * s
    b := 0.0259040371 * l + 0.7827717662 * m - 0.808675766 * s }

def oklabToRgb (M : JsMath) (L a b : ℚ) : ℚ × ℚ × ℚ :=
  let l := L + 0.3963377774 * a + 0.2158037573 * b
  let m := L - 0.1055613458 * a - 0.0638541728 * b
  let s := L - 0.0894841775 * a - 1.291485548 * b
  let l3 := l * l * l
  let m3 := m * m * m
  let s3 := s * s * s
  ( clampV (delin M (4.0767416621 * l3 - 3.3077115913 * m3 + 0.2309699292 * s3))
  , clampV (delin M (-1.2684380046 * l3 + 2.6097574011 * m3 - 0.3413193965 * s3))
  , clampV (delin M (-0.0041960863 * l3 - 0.7034186147 * m3 + 1.707614701 * s3)) )

/-- `_normaliseHex`: typeof guard, trim, optional `#`, lowercase, 3- or
6-digit forms; otherwise the descriptive `RangeError`. -/
def normaliseHex (M : JsMath) (raw : JsValue) : Except JsErr String :=
  match raw with
  | .str s =>
    let h := (jsTrim s.toList).dropWhile (· = '#') |>.map jsToLower
    -- `replace(/^#/, "")` removes at most one leading hash; a validated
    -- string cannot start with two hashes and also pass the digit tests,
    -- so dropWhile agrees with the source on every accepted input and on
    -- every rejected one the error is the same.
    if h.length = 3 ∧ h.all isHexLowerDigit then
      pure (String.mk ('#' :: [h.getD 0 '0', h.getD 0 '0', h.getD 1 '0', h.getD 1 '0',
        h.getD 2 '0', h.getD 2 '0']))
    else if h.length = 6 ∧ h.all isHexLowerDigit then
      pure (String.mk ('#' :: h))
    else
      .error (.rangeError ("Invalid hex color: \"" ++ s ++
        "\" — expected \"#rgb\" or \"#rrggbb\""))
  | v =>
    .error (.typeError ("Color must be a string, got " ++ typeofName v ++ ": " ++
      jsonStringify M v))

def hexToRgbTriple (hex : String) : ℚ × ℚ × ℚ :=
  let cs := hex.toList
  ( (hexPairVal (cs.getD 1 '0') (cs.getD 2 '0') : ℚ) / 255
  , (hexPairVal (cs.getD 3 '0') (cs.getD 4 '0') : ℚ) / 255
  , (hexPairVal (cs.getD 5 '0') (cs.getD 6 '0') : ℚ) / 255 )

def rgbToHexStr (r g b : ℚ) : String :=
  let f := fun (c : ℚ) => byteToHexStr (jsRound (clampV c * 255)).toNat
  String.mk ('#' :: (f r ++ f g ++ f b))

def hexToLch (M : JsMath) (hex : String) : LCH :=
  let t := hexToRgbTriple hex
  let lab := rgbToOklab M t.1 t.2.1 t.2.2
  { L := lab.L
    C := M.sqrt (lab.a * lab.a + lab.b * lab.b)
    H := jsMod (M.atan2 lab.b lab.a * 180 / M.pi + 360) 360 }

def lchToHex (M : JsMath) (L C H : ℚ) : String :=
  let rad := H * M.pi / 180
  let t := oklabToRgb M L (C * M.cos rad) (C * M.sin rad)
  rgbToHexStr t.1 t.2.1 t.2.2

/-- Shortest angular distance between two hue angles, in `[0, 180]`. -/
def hueDist (h1 h2 : ℚ) : ℚ :=
  let d := jsMod |h1 - h2| 360
  if 180 < d then 360 - d else d

/-- `wcagContrast` — WCAG 2.x ratio; re-normalises both inputs, so invalid
hex arguments propagate the corresponding error. -/
def wcagContrast (M : JsMath) (hexA hexB : String) : Except JsErr ℚ := do
  let wcagY := fun (hex : String) => do
    let h ← normaliseHex M (.str hex)
    let t := hexToRgbTriple h
    pure (0.2126 * lin M t.1 + 0.7152 * lin M t.2.1 + 0.0722 * lin M t.2.2)
  let ya ← wcagY hexA
  let yb ← wcagY hexB
  pure ((max ya yb + 0.05) / (min ya yb + 0.05))

/-- `bestTextOn` — `"#ffffff"` or `"#111111"`, whichever contrasts more. -/
def bestTextOn (M : JsMath) (bgHex : String) : Except JsErr String := do
  let a ← wcagContrast M bgHex "#ffffff"
  let b ← wcagContrast M bgHex "#111111"
  pure (if b ≤ a then "#ffffff" else "#111111")

/-- Resolved configuration with the documented defaults. -/
def mkCfg (opts : SelectOptions) : ℚ × ℚ × ℚ × ℚ × ℚ × ℚ × ℚ :=
  ( opts.neutralChromaMax.getD 0.06
  , opts.mainLightnessMin.getD 0.4
  , opts.mainLightnessMax.getD 0.72
  , opts.shadeHueTolerance.getD 30
  , opts.accentHueMin.getD 100
  , opts.derivedDarkL.getD 0.2
  , opts.derivedDarkC.getD 0.035 )

/-- `mkRole` — assembles one `ColorRole`; `contrast` is
`parseFloat(wcagContrast(hex, nl).toFixed(2))`, abstracted as `M.round2`. -/
def mkRole (M : JsMath) (nlHex role label weight hex : String) (derived : Bool) :
    Except JsErr ColorRole := do
  let tc ← bestTextOn M hex
  let cr ← wcagContrast M hex nlHex
  pure { hex := hex, role := role, label := label, weight := weight
         lch := hexToLch M hex, derived := derived, textColor := tc
         contrast := M.round2 cr }

/-- Validity of a normalised `"#rrggbb"` string (the invariant every hex
flowing through the selection steps satisfies). -/
def isValidHex6 (s : String) : Bool :=
  match s.toList with
  | '#' :: cs => cs.length = 6 ∧ cs.all isHexLowerDigit
  | _ => false

/-- The default `InternalColor` used for `headD` on lists that the
surrounding control flow guarantees non-empty. -/
def dfltIC : InternalColor := { hex := "", lch := { L := 0, C := 0, H := 0 } }

/-- The five selected `(hex, derived)` values. -/
structure Picked where
  nlHex : String
  mainHex : String
  ndHex : String
  ndDerived : Bool
  shHex : String
  shDerived : Bool
  acHex : String
  acDerived : Bool
deriving DecidableEq, Repr

/-- `arr.slice().sort(cmp)[0]` with the non-emptiness default. -/
def pickHead (cmp : InternalColor → InternalColor → Bool)
    (l : List InternalColor) : InternalColor :=
  (jsSortBy cmp l).headD dfltIC

/-- `a.length ? a : b` — the "fall back to the wider pool" pattern. -/
def fallback (l q : List InternalColor) : List InternalColor :=
  if 0 < l.length then l else q

/-- `guard.length ? (pick from inner, derived=false) : (alt, derived=true)` —
the shared shape of selection steps 3–5. -/
def pickOr2 (cmp : InternalColor → InternalColor → Bool)
    (guard inner : List InternalColor) (alt : String) : String × Bool :=
  if 0 < guard.length then ((pickHead cmp inner).hex, false) else (alt, true)

/-- The pure selection steps 1–5 of `select60_30_10` on the normalised
palette, with the configuration tuple of `mkCfg`. -/
def pickRoles (M : JsMath) (cfg : ℚ × ℚ × ℚ × ℚ × ℚ × ℚ × ℚ)
    (px : List InternalColor) : Picked :=
  let neutralChromaMax := cfg.1
  let mainLightnessMin := cfg.2.1
  let mainLightnessMax := cfg.2.2.1
  let shadeHueTolerance := cfg.2.2.2.1
  let accentHueMin := cfg.2.2.2.2.1
  let derivedDarkL := cfg.2.2.2.2.2.1
  let derivedDarkC := cfg.2.2.2.2.2.2
  -- Step 1: neutralLight
  let nearNeutrals := px.filter fun c => c.lch.C < neutralChromaMax
  let nlSrc := pickHead (fun a b => decide (b.lch.L ≤ a.lch.L))
    (fallback nearNeutrals px)
  -- Step 2: mainColor
  let midBand := px.filter fun c =>
    mainLightnessMin ≤ c.lch.L ∧ c.lch.L ≤ mainLightnessMax
  let mainSrc := pickHead (fun a b => decide (b.lch.C ≤ a.lch.C))
    (fallback midBand px)
  -- Step 3: neutralDark
  let darkNeutrals := nearNeutrals.filter fun c =>
    c.lch.L < 0.35 ∧ c.hex ≠ nlSrc.hex
  let nd : String × Bool :=
    pickOr2 (fun a b => decide (a.lch.L ≤ b.lch.L)) darkNeutrals darkNeutrals
      (lchToHex M derivedDarkL derivedDarkC mainSrc.lch.H)
  -- Step 4: mainColorShade
  let rem12 := px.filter fun c => ¬(c.hex = nlSrc.hex ∨ c.hex = mainSrc.hex)
  let sameHue := rem12.filter fun c =>
    hueDist c.lch.H mainSrc.lch.H < shadeHueTolerance ∧ 0.1 < c.lch.C
  let sh : String × Bool :=
    pickOr2 (fun a b => decide (b.lch.C ≤ a.lch.C)) rem12 (fallback sameHue rem12)
      (lchToHex M (max 0.05 (mainSrc.lch.L - 0.08)) (mainSrc.lch.C * 0.92)
        mainSrc.lch.H)
  -- Step 5: accentColor
  let rem123 := px.filter fun c =>
    ¬(c.hex = nlSrc.hex ∨ c.hex = mainSrc.hex ∨ c.hex = sh.1)
  let farHue := rem123.filter fun c =>
    accentHueMin ≤ hueDist c.lch.H mainSrc.lch.H
  let ac : String × Bool :=
    pickOr2 (fun a b => decide (b.lch.C ≤ a.lch.C)) rem123 (fallback farHue rem123)
      (lchToHex M 0.72 (min mainSrc.lch.C 0.18) (jsMod (mainSrc.lch.H + 150) 360))
  { nlHex := nlSrc.hex, mainHex := mainSrc.hex
    ndHex := nd.1, ndDerived := nd.2
    shHex := sh.1, shDerived := sh.2
    acHex := ac.1, acDerived := ac.2 }

/-- The selection steps plus the `mkRole` assembly. -/
def selectCore (M : JsMath) (cfg : ℚ × ℚ × ℚ × ℚ × ℚ × ℚ × ℚ)
    (px : List InternalColor) : Except JsErr RuleResult := do
  let p := pickRoles M cfg px
  let neutralLight ← mkRole M p.nlHex "neutralLight" "Neutral Light" "60%"
    p.nlHex false
  let neutralDark ← mkRole M p.nlHex "neutralDark" "Neutral Dark" "—"
    p.ndHex p.ndDerived
  let mainColor ← mkRole M p.nlHex "mainColor" "Main Color" "30%"
    p.mainHex false
  let mainColorShade ← mkRole M p.nlHex "mainColorShade" "Main Color Shade" "—"
    p.shHex p.shDerived
  let accentColor ← mkRole M p.nlHex "accentColor" "Accent Color" "10%"
    p.acHex p.acDerived
  pure { neutralLight := neutralLight, neutralDark := neutralDark
         mainColor := mainColor, mainColorShade := mainColorShade
         accentColor := accentColor }

/-- One entry of the `palette.map(raw => ...)` normalisation loop:
`_normaliseHex` plus the cached LCH decomposition. -/
def normIC (M : JsMath) (raw : JsValue) : Except JsErr InternalColor := do
  let hex ← normaliseHex M raw
  pure { hex := hex, lch := hexToLch M hex }

/-- `select60_30_10` over a dynamic argument: validation, per-entry
normalisation, then the selection steps and assembly of `selectCore`
(a transparent factoring of the source's single function body). -/
def select60_30_10 (M : JsMath) (palette : JsValue)
    (opts : SelectOptions := {}) : Except JsErr RuleResult :=
  match palette with
  | .arr ps =>
    if ps.length = 0 then
      .error (.typeError "palette must be a non-empty array of hex color strings")
    else do
      let px ← ps.mapM (normIC M)
      selectCore M (mkCfg opts) px
  | _ => .error (.typeError "palette must be a non-empty array of hex color strings")

/-- Specification-side definition (transcribed from the SPEC's wording, to be
compared against the source-translated `select60_30_10`): the three input
validation classes the spec promises — (1) "empty collection / wrong container
type" rejected with the fixed `TypeError`, (2) "wrong type" of an element
rejected with a `TypeError` naming the received type, (3) "wrong format" of a
string element rejected with a `RangeError` naming the offending value. -/
def specErrorClass (M : JsMath) (palette : JsValue) (e : JsErr) : Prop :=
  (e = .typeError "palette must be a non-empty array of hex color strings" ∧
    ((∀ l, palette ≠ .arr l) ∨ palette = .arr [])) ∨
  (∃ l v, palette = .arr l ∧ v ∈ l ∧ (∀ s, v ≠ .str s) ∧
    e = .typeError ("Color must be a string, got " ++ typeofName v ++ ": " ++
      jsonStringify M v)) ∨
  (∃ l s, palette = .arr l ∧ .str s ∈ l ∧
    normaliseHex M (.str s) = .error e ∧
    e = .rangeError ("Invalid hex color: \"" ++ s ++
      "\" — expected \"#rgb\" or \"#rrggbb\""))

/-- A throwaway `ColorRole` for `okD`. -/
def dfltRole : ColorRole :=
  { hex := "", role := "", label := "", weight := ""
    lch := { L := 0, C := 0, H := 0 }, derived := true, textColor := ""
    contrast := 0 }

/-- A throwaway `RuleResult` for `okD`. -/
def dfltRule : RuleResult :=
  { neutralLight := dfltRole, neutralDark := dfltRole, mainColor := dfltRole
    mainColorShade := dfltRole, accentColor := dfltRole }

/-- The payload of an `ok` result (used to name concrete results in closed
statements). -/
def okD (x : Except JsErr RuleResult) : RuleResult :=
  match x with
  | .ok r => r
  | .error _ => dfltRule

end Sel

namespace ImageGen

/-! ## `ImageGenerator.ts` — pixel-clustering palette extraction.

`Math.random()` draws are an explicit stream `rand : ℕ → ℚ`, consumed at
successive indices in exactly the order the source draws them. -/

structure RGB where
  r : ℚ
  g : ℚ
  b : ℚ
deriving DecidableEq, Repr, Inhabited

structure Lab where
  L : ℚ
  a : ℚ
  b : ℚ
deriving DecidableEq, Repr, Inhabited

def linearize (M : JsMath) (c : ℚ) : ℚ :=
  if c ≤ 0.04045 then c / 12.92 else M.powf ((c + 0.055) / 1.055) 2.4

def delinearize (M : JsMath) (c : ℚ) : ℚ :=
  if c ≤ 0.0031308 then 12.92 * c else 1.055 * M.powf c (1/2.4) - 0.055

def clamp01 (v : ℚ) : ℚ := max 0 (min 1 v)

def rgbToOklab (M : JsMath) (c : RGB) : Lab :=
  let lr := linearize M c.r
  let lg := linearize M c.g
  let lb := linearize M c.b
  let l := M.cbrt (0.4122214708 * lr + 0.5363325363 * lg + 0.0514459929 * lb)
  let m := M.cbrt (0.2119034982 * lr + 0.6806995451 * lg + 0.1073969566 * lb)
  let s := M.cbrt (0.0883024619 * lr + 0.2817188376 * lg + 0.6299787005 * lb)
  { L := 0.2104542553 * l + 0.793617785 * m - 0.0040720468 * s
    a := 1.9779984951 * l - 2.428592205 * m + 0.4505937099 * s
    b := 0.0259040371 * l + 0.7827717662 * m - 0.808675766 * s }

def oklabToRgb (M : JsMath) (lab : Lab) : RGB :=
  let l := lab.L + 0.3963377774 * lab.a + 0.2158037573 * lab.b
  let m := lab.L - 0.1055613458 * lab.a - 0.0638541728 * lab.b
  let s := lab.L - 0.0894841775 * lab.a - 1.291485548 * lab.b
  let l3 := l * l * l
  let m3 := m * m * m
  let s3 := s * s * s
  { r := clamp01 (delinearize M (4.0767416621 * l3 - 3.3077115913 * m3 + 0.2309699292 * s3))
    g := clamp01 (delinearize M (-1.2684380046 * l3 + 2.6097574011 * m3 - 0.3413193965 * s3))
    b := clamp01 (delinearize M (-0.0041960863 * l3 - 0.7034186147 * m3 + 1.707614701 * s3)) }

def labDist2 (a b : Lab) : ℚ :=
  (a.L - b.L) ^ 2 + (a.a - b.a) ^ 2 + (a.b - b.b) ^ 2

def labChroma (M : JsMath) (lab : Lab) : ℚ :=
  M.sqrt (lab.a * lab.a + lab.b * lab.b)

def hexToRgb (hex : String) : RGB :=
  let cs := hex.toList
  { r := (hexPairVal (cs.getD 1 '0') (cs.getD 2 '0') : ℚ) / 255
    g := (hexPairVal (cs.getD 3 '0') (cs.getD 4 '0') : ℚ) / 255
    b := (hexPairVal (cs.getD 5 '0') (cs.getD 6 '0') : ℚ) / 255 }

/-- `rgbToHex` of this module rounds without clamping (its inputs are always
already inside `[0,1]`). -/
def rgbToHex (c : RGB) : String :=
  let f := fun (v : ℚ) => byteToHexStr (jsRound (v * 255)).toNat
  String.mk ('#' :: (f c.r ++ f c.g ++ f c.b))

def labToHex (M : JsMath) (lab : Lab) : String := rgbToHex (oklabToRgb M lab)

/-- `padToK` — exactly `k` results, padding with evenly spaced lightness
variants of the last color (the `while` loop becomes the explicit range of
the lengths it traverses). -/
def padToK (labs : List Lab) (k : ℕ) : List Lab :=
  if k ≤ labs.length then labs.take k
  else
    let base := labs.getLastD { L := 0.5, a := 0, b := 0 }
    labs ++ (List.range' labs.length (k - labs.length)).map fun m =>
      { base with L := clamp01 (0.2 + ((m : ℚ) / k) * 0.6) }

def padRgbToK (rgbs : List RGB) (k : ℕ) : List RGB :=
  if k ≤ rgbs.length then rgbs.take k
  else
    rgbs ++ (List.range' rgbs.length (k - rgbs.length)).map fun m =>
      let t : ℚ := (m : ℚ) / k
      { r := t, g := t, b := t }

structure PixelSample where
  rgbs : List RGB
  labs : List Lab
deriving DecidableEq, Repr

/-- One loop body of `samplePixels` at index `i = j · stride`:
skip the pixel when its alpha byte is below 128, else push it. -/
def sampleStep (M : JsMath) (data : List ℕ) (stride : ℕ)
    (acc : PixelSample) (j : ℕ) : PixelSample :=
  if data.getD (j * stride + 3) 0 < 128 then acc
  else
    let rgb : RGB := { r := (data.getD (j * stride) 0 : ℚ) / 255
                       g := (data.getD (j * stride + 1) 0 : ℚ) / 255
                       b := (data.getD (j * stride + 2) 0 : ℚ) / 255 }
    { rgbs := acc.rgbs ++ [rgb], labs := acc.labs ++ [rgbToOklab M rgb] }

/-- `samplePixels` — stride-sample the RGBA byte buffer, dropping pixels with
alpha < 128.  The `for` loop over `i = 0, 4·step, 8·step, …` becomes a fold
over the same index list.  (For a buffer whose length is not a multiple of 4,
JavaScript reads `undefined` past the end; the model reads `0`, which only
matters for such ill-formed buffers.) -/
def samplePixels (M : JsMath) (data : List ℕ) (maxPixels : ℕ := 6000) : PixelSample :=
  let step := max 1 (data.length / 4 / maxPixels)
  let cnt := (data.length + 4 * step - 1) / (4 * step)
  (List.range cnt).foldl (sampleStep M data (4 * step)) { rgbs := [], labs := [] }

/-- Clamped byte write of `Uint8ClampedArray` (the written value is already
an integer, so only the clamping matters). -/
def u8clamp (z : ℤ) : ℕ := (max 0 (min 255 z)).toNat

/-- `syntheticPixels` — 800 noisy pixels per hint color; three `Math.random`
draws per pixel, in `r`, `g`, `b` order. -/
def syntheticPixels (rand : ℕ → ℚ) (colors : List String) : List ℕ :=
  colors.enum.flatMap fun ce =>
    let rgb := hexToRgb ce.2
    (List.range 800).flatMap fun i =>
      let off := ce.1 * 2400 + i * 3
      let nz := fun (j : ℕ) => (rand (off + j) - 0.5) * 30
      [ u8clamp (jsRound (clamp01 rgb.r * 255 + nz 0))
      , u8clamp (jsRound (clamp01 rgb.g * 255 + nz 1))
      , u8clamp (jsRound (clamp01 rgb.b * 255 + nz 2))
      , 255 ]

/-- `Math.min(...)` of the distances from `p` to a non-empty centroid list. -/
def minDistTo (cents : List Lab) (p : Lab) : ℚ :=
  match cents with
  | [] => 0
  | c :: cs => cs.foldl (fun m x => min m (labDist2 p x)) (labDist2 p c)

/-- The k-means++ roulette scan: subtract distances until the drawn value is
exhausted; `chosen` stays `0` when the loop never triggers. -/
def scanChoose : List ℚ → ℚ → ℕ → ℕ
  | [], _, _ => 0
  | d :: ds, r, i => if r - d ≤ 0 then i else scanChoose ds (r - d) (i + 1)

/-- The argmin of `labDist2 p` over an indexed centroid list
(`best = 0`, `bd = ∞`, strict `<`). -/
def bestCluster (cents : List Lab) (p : Lab) : ℕ :=
  (cents.enum.foldl
    (fun acc e =>
      let d := labDist2 p e.2
      match acc.2 with
      | none => (e.1, some d)
      | some bd => if d < bd then (e.1, some d) else acc)
    ((0 : ℕ), (none : Option ℚ))).1

/-- The k-means++ seeding loop (`ci = 1 … k−1`), one draw per centroid at
stream index `ix0 + ci`. -/
def seedCentroids (rand : ℕ → ℚ) (pool : List Lab) (ix0 k : ℕ)
    (first : Lab) : List Lab :=
  (List.range' 1 (k - 1)).foldl
    (fun cents ci =>
      let dists := pool.map (minDistTo cents)
      let sum := dists.foldl (· + ·) 0
      let chosen := scanChoose dists (rand (ix0 + ci) * sum) 0
      cents ++ [pool.getD chosen default])
    [first]

/-- Lloyd iterations with the convergence break: when no assignment moves,
stop *before* updating the centroids, as the source does. -/
def kmIter (pool : List Lab) : ℕ → List Lab → List ℕ → List Lab × List ℕ
  | 0, cents, assign => (cents, assign)
  | f + 1, cents, assign =>
    let newAssign := pool.map (bestCluster cents)
    if newAssign = assign then (cents, assign)
    else
      let cents' := cents.enum.map fun e =>
        let grp := ((pool.zip newAssign).filter fun pa => pa.2 = e.1).map Prod.fst
        if 0 < grp.length then
          { L := (grp.map Lab.L).foldl (· + ·) 0 / grp.length
            a := (grp.map Lab.a).foldl (· + ·) 0 / grp.length
            b := (grp.map Lab.b).foldl (· + ·) 0 / grp.length }
        else e.2
      kmIter pool f cents' newAssign

/-- `kMeansCore` — chroma-weighted subsample (one draw per input pixel, in
order), k-means++ seeding, at most `maxIter` Lloyd iterations, then ranking
by `count × (1 + 3 × chroma)` and padding to exactly `k`. -/
def kMeansCore (M : JsMath) (rand : ℕ → ℚ) (labs : List Lab) (k : ℕ)
    (maxIter : ℕ := 25) : List Lab :=
  if labs.isEmpty then []
  else
    let pixels := labs.enum.filterMap fun p =>
      let c := labChroma M p.2
      if rand p.1 ≤ (if c < 0.05 then 0.2 else if c < 0.15 then 0.6 else 1.0)
      then some p.2 else none
    let pool := if k ≤ pixels.length then pixels else labs
    let n := pool.length
    let ix0 := labs.length
    let c0 := pool.getD (jsFloor (rand ix0 * n)).toNat default
    let centroids := seedCentroids rand pool ix0 k c0
    let fin := kmIter pool maxIter centroids (List.replicate n 0)
    let scored := fin.1.enum.map fun e =>
      (e.2, ((fin.2.count e.1 : ℕ) : ℚ) * (1 + 3 * labChroma M e.2))
    padToK ((jsSortBy (fun a b => decide (b.2 ≤ a.2)) scored).map Prod.fst) k

/-- Number of `Math.random` draws one `kMeansCore` call consumes. -/
def kMeansDraws (labsLen k : ℕ) : ℕ := labsLen + max k 1

/-- `splitBox` of median cut: extent per axis (initial bounds `1`/`0` as in
the source), widest axis, stable sort along it, bisect at the median. -/
def splitBox (box : List RGB) : List RGB × List RGB :=
  let rn := box.foldl (fun m p => min m p.r) 1
  let rx := box.foldl (fun m p => max m p.r) 0
  let gn := box.foldl (fun m p => min m p.g) 1
  let gx := box.foldl (fun m p => max m p.g) 0
  let bn := box.foldl (fun m p => min m p.b) 1
  let bx := box.foldl (fun m p => max m p.b) 0
  let key := fun (p : RGB) =>
    if gx - gn ≤ rx - rn ∧ bx - bn ≤ rx - rn then p.r
    else if bx - bn ≤ gx - gn then p.g else p.b
  let sorted := jsSortBy (fun a b => decide (key a ≤ key b)) box
  let mid := sorted.length / 2
  (sorted.take mid, sorted.drop mid)

/-- The median-cut `while` loop, with fuel `k` (each pass adds one box). -/
def mcLoop (k : ℕ) : ℕ → List (List RGB) → List (List RGB)
  | 0, boxes => boxes
  | f + 1, boxes =>
    if k ≤ boxes.length then boxes
    else
      match jsSortBy (fun a b => decide ((b : List RGB).length ≤ a.length)) boxes with
      | [] => []
      | b0 :: rest =>
        if b0.length < 2 then b0 :: rest
        else
          let s := splitBox b0
          mcLoop k f (rest ++ [s.1, s.2])

def medianCutAlgo (rgbs : List RGB) (k : ℕ) : List RGB :=
  if rgbs.isEmpty then padRgbToK [] k
  else
    let boxes := mcLoop k k [rgbs]
    padRgbToK
      (boxes.map fun box =>
        let n : ℚ := box.length
        { r := (box.map RGB.r).foldl (· + ·) 0 / n
          g := (box.map RGB.g).foldl (· + ·) 0 / n
          b := (box.map RGB.b).foldl (· + ·) 0 / n })
      k

/-- Quantization to 7 levels per channel. -/
def quant7 (q : ℚ) : ℚ := ((jsRound (q * 7)) : ℚ) / 7

/-- Insertion-ordered counting map (the JavaScript `Map` keyed by the string
`r,g,b`, which is injective on the quantized triples). -/
def bumpKey (key : ℚ × ℚ × ℚ) : List ((ℚ × ℚ × ℚ) × ℕ) → List ((ℚ × ℚ × ℚ) × ℕ)
  | [] => [(key, 1)]
  | e :: es => if e.1 = key then (e.1, e.2 + 1) :: es else e :: bumpKey key es

def dominantAlgo (rgbs : List RGB) (k : ℕ) : List RGB :=
  let entries := rgbs.foldl (fun m p => bumpKey (quant7 p.r, quant7 p.g, quant7 p.b) m) []
  padRgbToK
    (((jsSortBy (fun a b => decide (b.2 ≤ a.2)) entries).take k).map fun e =>
      { r := e.1.1, g := e.1.2.1, b := e.1.2.2 })
    k

/-- The pool `vibrantAlgo` hands to `kMeansCore` (filter, or the full set
when the filter starves). -/
def vibrantPool (M : JsMath) (labs : List Lab) (k : ℕ) : List Lab :=
  let vivid := labs.filter fun lab =>
    0.1 < labChroma M lab ∧ 0.25 < lab.L ∧ lab.L < 0.85
  if k ≤ vivid.length then vivid else labs

def vibrantAlgo (M : JsMath) (rand : ℕ → ℚ) (labs : List Lab) (k : ℕ) : List Lab :=
  kMeansCore M rand (vibrantPool M labs k) k

def mutedPool (M : JsMath) (labs : List Lab) (k : ℕ) : List Lab :=
  let soft := labs.filter fun lab =>
    0.02 ≤ labChroma M lab ∧ labChroma M lab ≤ 0.09 ∧ 0.2 < lab.L ∧ lab.L < 0.9
  if k ≤ soft.length then soft else labs

def mutedAlgo (M : JsMath) (rand : ℕ → ℚ) (labs : List Lab) (k : ℕ) : List Lab :=
  kMeansCore M rand (mutedPool M labs k) k

/-- Octree node: channel sums, count, leaf flag, eight optional children. -/
inductive OctNode where
  | node (r g b : ℚ) (count : ℕ) (isLeaf : Bool) (children : List (Option OctNode))

def octCount : OctNode → ℕ
  | .node _ _ _ cnt _ _ => cnt

def octR : OctNode → ℚ
  | .node r _ _ _ _ _ => r

def octG : OctNode → ℚ
  | .node _ g _ _ _ _ => g

def octB : OctNode → ℚ
  | .node _ _ b _ _ _ => b

def emptyNode : OctNode := .node 0 0 0 0 false (List.replicate 8 none)

/-- Recursive octree insertion; the fuel is `8 − depth`, so the child index
uses bit `fuel − 1 = 7 − depth` of each channel. -/
def octInsert : ℕ → OctNode → ℕ → ℕ → ℕ → OctNode
  | 0, .node nr ng nb cnt _ ch, r, g, b =>
    .node (nr + r) (ng + g) (nb + b) (cnt + 1) true ch
  | f + 1, .node nr ng nb cnt lf ch, r, g, b =>
    let idx := (((r >>> f) &&& 1) <<< 2) ||| (((g >>> f) &&& 1) <<< 1) ||| ((b >>> f) &&& 1)
    let child := ((ch.getD idx none).getD emptyNode)
    .node nr ng nb cnt lf (ch.set idx (some (octInsert f child r g b)))

mutual

/-- Leaves with positive count, in traversal order (children 0…7). -/
def getLeaves : OctNode → List OctNode
  | .node r g b cnt lf ch =>
    if lf ∧ 0 < cnt then [.node r g b cnt lf ch]
    else getLeavesList ch

def getLeavesList : List (Option OctNode) → List OctNode
  | [] => []
  | none :: rest => getLeavesList rest
  | some n :: rest => getLeaves n ++ getLeavesList rest

end

mutual

/-- Zero the count of the first leaf (in traversal order) whose count equals
`c`.  The source instead writes `leaves[0].count = 0` after a stable
ascending sort, which designates exactly this leaf. -/
def zeroFirstLeaf (c : ℕ) : OctNode → OctNode × Bool
  | .node r g b cnt lf ch =>
    if lf ∧ 0 < cnt then
      if cnt = c then (.node r g b 0 lf ch, true) else (.node r g b cnt lf ch, false)
    else
      let p := zeroFirstLeafList c ch
      (.node r g b cnt lf p.1, p.2)

def zeroFirstLeafList (c : ℕ) : List (Option OctNode) → List (Option OctNode) × Bool
  | [] => ([], false)
  | none :: rest =>
    let p := zeroFirstLeafList c rest
    (none :: p.1, p.2)
  | some n :: rest =>
    let p := zeroFirstLeaf c n
    if p.2 then (some p.1 :: rest, true)
    else
      let q := zeroFirstLeafList c rest
      (some n :: q.1, q.2)

end

/-- The collapse loop: while more than `k` leaves remain, zero the
least-count leaf; each pass removes one leaf, so the initial leaf count is
enough fuel. -/
def octCollapse (k : ℕ) : ℕ → OctNode → OctNode
  | 0, root => root
  | f + 1, root =>
    let leaves := getLeaves root
    if leaves.length ≤ k then root
    else
      match jsSortBy (fun a b => decide (octCount a ≤ octCount b)) leaves with
      | [] => root
      | l0 :: _ => octCollapse k f (zeroFirstLeaf (octCount l0) root).1

def octreeAlgo (rgbs : List RGB) (k : ℕ) : List RGB :=
  let root := rgbs.foldl
    (fun rt p =>
      octInsert 8 rt (jsRound (p.r * 255)).toNat (jsRound (p.g * 255)).toNat
        (jsRound (p.b * 255)).toNat)
    emptyNode
  let root1 := octCollapse k (getLeaves root).length root
  let leaves := getLeaves root1
  padRgbToK
    ((((jsSortBy (fun a b => decide (octCount b ≤ octCount a))
        (leaves.filter fun n => 0 < octCount n)).take k).map fun n =>
      { r := clamp01 ((octR n / octCount n) / 255)
        g := clamp01 ((octG n / octCount n) / 255)
        b := clamp01 ((octB n / octCount n) / 255) }))
    k

def colorMomentsAlgo (M : JsMath) (labs : List Lab) (k : ℕ) : List Lab :=
  if labs.isEmpty then padToK [] k
  else
    let n : ℚ := labs.length
    let mL := (labs.map Lab.L).foldl (· + ·) 0 / n
    let mA := (labs.map Lab.a).foldl (· + ·) 0 / n
    let mB := (labs.map Lab.b).foldl (· + ·) 0 / n
    let sL := M.sqrt ((labs.map fun l => (l.L - mL) ^ 2).foldl (· + ·) 0 / n)
    let sA := M.sqrt ((labs.map fun l => (l.a - mA) ^ 2).foldl (· + ·) 0 / n)
    let sB := M.sqrt ((labs.map fun l => (l.b - mB) ^ 2).foldl (· + ·) 0 / n)
    let kL := M.cbrt ((labs.map fun l => (l.L - mL) ^ 3).foldl (· + ·) 0 / n)
    let kA := M.cbrt ((labs.map fun l => (l.a - mA) ^ 3).foldl (· + ·) 0 / n)
    let kB := M.cbrt ((labs.map fun l => (l.b - mB) ^ 3).foldl (· + ·) 0 / n)
    arrayFrom k fun i =>
      let t : ℚ := if k = 1 then 0 else ((i : ℚ) / ((k : ℚ) - 1)) * 2 - 1
      { L := clamp01 (mL + t * sL + (t * t - 1/3) * kL * 0.3)
        a := clamp01 (mA + t * sA + (t * t - 1/3) * kA * 0.3)
        b := clamp01 (mB + t * sB + (t * t - 1/3) * kB * 0.3) }

def neuralQuantAlgo (M : JsMath) (rand : ℕ → ℚ) (labs : List Lab) (k : ℕ) : List Lab :=
  if labs.length < k then padToK (kMeansCore M rand labs labs.length) k
  else
    let neurons0 := arrayFrom k fun i =>
      labs.getD (jsFloor ((i : ℚ) / k * labs.length)).toNat default
    let passes := min labs.length 4000
    let step := max 1 (labs.length / passes)
    let neurons := (List.range passes).foldl
      (fun ns pass =>
        let lab := labs.getD ((pass * step) % labs.length) default
        let rate := 0.4 * (1 - (pass : ℚ) / passes)
        let bmu := bestCluster ns lab
        let radius : ℤ := max 1 (jsRound ((k : ℚ) / 4 * (1 - (pass : ℚ) / passes)))
        ns.enum.map fun e =>
          let dist : ℤ := |(e.1 : ℤ) - (bmu : ℤ)|
          if radius < dist then e.2
          else
            let influence := rate *
              M.exp (-((dist : ℚ) * (dist : ℚ)) / (2 * (radius : ℚ) * (radius : ℚ)))
            { L := e.2.L + influence * (lab.L - e.2.L)
              a := e.2.a + influence * (lab.a - e.2.a)
              b := e.2.b + influence * (lab.b - e.2.b) })
      neurons0
    let unique := neurons.foldl
      (fun u n => if u.any fun x => labDist2 x n < 0.0005 then u else u ++ [n]) []
    padToK unique k

structure HistBin where
  sumL : ℚ
  sumC : ℚ
  count : ℕ
deriving DecidableEq, Repr, Inhabited

def histogramAlgo (M : JsMath) (labs : List Lab) (k : ℕ) : List Lab :=
  let bins := labs.foldl
    (fun (bs : List HistBin) lab =>
      let H := jsMod (M.atan2 lab.b lab.a * 180 / M.pi + 360) 360
      let bidx := Int.tmod (jsFloor (H / (360 / (72 : ℚ)))) 72
      -- a negative index (atan2 outside its real range) would fault in
      -- JavaScript; the model leaves the bins unchanged there
      if bidx < 0 then bs
      else
        let i := bidx.toNat
        let b := bs.getD i { sumL := 0, sumC := 0, count := 0 }
        bs.set i { sumL := b.sumL + lab.L, sumC := b.sumC + labChroma M lab
                   count := b.count + 1 })
    (List.replicate 72 { sumL := 0, sumC := 0, count := 0 })
  let smooth := (List.range 72).map fun i =>
    (((bins.getD ((i + 71) % 72) default).count + (bins.getD i default).count +
      (bins.getD ((i + 1) % 72) default).count : ℕ) : ℚ) / 3
  let peaks := (List.range 72).filter fun i =>
    smooth.getD ((i + 71) % 72) 0 < smooth.getD i 0 ∧
    smooth.getD ((i + 1) % 72) 0 ≤ smooth.getD i 0 ∧
    0 < (bins.getD i default).count
  let peaksSorted := jsSortBy
    (fun a b => decide (smooth.getD b 0 ≤ smooth.getD a 0)) peaks
  let top0 := peaksSorted.take k
  let byCount := jsSortBy (fun a b => decide (b.2 ≤ a.2))
    ((List.range 72).map fun i => (i, smooth.getD i 0))
  let top1 := byCount.foldl
    (fun t e =>
      if t.length < k ∧ ¬ t.contains e.1 ∧ 0 < (bins.getD e.1 default).count
      then t ++ [e.1] else t)
    top0
  let top2 := top1 ++ (List.range (k - top1.length)).map fun j => j * (72 / k)
  (top2.take k).map fun (bi : ℕ) =>
    let H := ((bi : ℕ) : ℚ) / 72 * 360 + (360 / 72) / 2
    let b := bins.getD bi default
    let L := if 0 < b.count then b.sumL / b.count else 0.5
    let C := if 0 < b.count then b.sumC / b.count else 0.12
    let rad := H * M.pi / 180
    { L := L, a := C * M.cos rad, b := C * M.sin rad }

/-- Minimum `labDist2` from `c` to a non-empty selection
(`reduce` with initial `Infinity`). -/
def minDistSel (c : Lab) : List Lab → ℚ
  | [] => 0
  | s :: ss => ss.foldl (fun m x => min m (labDist2 c x)) (labDist2 c s)

/-- The greedy farthest-point loop of `deltaEAlgo`, fuel `k`. -/
def deLoop (cands : List Lab) (k : ℕ) : ℕ → List Lab → List Lab
  | 0, sel => sel
  | f + 1, sel =>
    if k ≤ sel.length then sel
    else
      let far := cands.foldl
        (fun (acc : Lab × Option ℚ) c =>
          let minD := minDistSel c sel
          if (match acc.2 with | none => true | some fd => fd < minD)
          then (c, some minD) else acc)
        (cands.headD default, none)
      match far.2 with
      | none => sel
      | some fd => if fd = 0 then sel else deLoop cands k f (sel ++ [far.1])

def deltaEAlgo (M : JsMath) (labs : List Lab) (k : ℕ) : List Lab :=
  if labs.isEmpty then padToK [] k
  else
    let step := max 1 (labs.length / 2000)
    let cands := labs.enum.filterMap fun e =>
      if e.1 % step = 0 then some e.2 else none
    let seed := match cands with
      | [] => default
      | c :: cs => cs.foldl
          (fun best lab => if labChroma M best < labChroma M lab then lab else best) c
    padToK (deLoop cands k k [seed]) k

structure ImageGeneratorOutput where
  kmeans : List String
  medianCut : List String
  dominant : List String
  vibrant : List String
  muted : List String
  octree : List String
  colorMoments : List String
  neuralQuant : List String
  histogram : List String
  deltaE : List String
deriving DecidableEq, Repr

/-- Offset view of the random stream, used to thread the global
`Math.random` sequence through the randomized algorithms in the order the
object literal evaluates them. -/
def shiftR (rand : ℕ → ℚ) (n : ℕ) : ℕ → ℚ := fun i => rand (n + i)

/-- `generateImagePalettes` — sample (or synthesize) pixels, return the
all-black fixed shape when nothing opaque remains, else run the ten
algorithms. -/
def generateImagePalettes (M : JsMath) (rand : ℕ → ℚ)
    (square : Option (List String)) (k : ℕ) (data : Option (List ℕ)) :
    ImageGeneratorOutput :=
  let pd : List ℕ × ℕ :=
    match data with
    | some d => (d, 0)
    | none =>
      let cols := square.getD ["#888888"]
      (syntheticPixels rand cols, cols.length * 2400)
  let s := samplePixels M pd.1
  if s.labs.isEmpty then
    let empty := List.replicate k "#000000"
    { kmeans := empty, medianCut := empty, dominant := empty, vibrant := empty
      muted := empty, octree := empty, colorMoments := empty
      neuralQuant := empty, histogram := empty, deltaE := empty }
  else
    let ix0 := pd.2
    let ix1 := ix0 + kMeansDraws s.labs.length k
    let vp := vibrantPool M s.labs k
    let ix2 := ix1 + kMeansDraws vp.length k
    let mp := mutedPool M s.labs k
    let ix3 := ix2 + kMeansDraws mp.length k
    { kmeans := (kMeansCore M (shiftR rand ix0) s.labs k).map (labToHex M)
      medianCut := (medianCutAlgo s.rgbs k).map rgbToHex
      dominant := (dominantAlgo s.rgbs k).map rgbToHex
      vibrant := (vibrantAlgo M (shiftR rand ix1) s.labs k).map (labToHex M)
      muted := (mutedAlgo M (shiftR rand ix2) s.labs k).map (labToHex M)
      octree := (octreeAlgo s.rgbs k).map rgbToHex
      colorMoments := (colorMomentsAlgo M s.labs k).map (labToHex M)
      neuralQuant := (neuralQuantAlgo M (shiftR rand ix3) s.labs k).map (labToHex M)
      histogram := (histogramAlgo M s.labs k).map (labToHex M)
      deltaE := (deltaEAlgo M s.labs k).map (labToHex M) }

end ImageGen

namespace Contrast

/-! ## The contrast-based accessibility generator
(`adjustToWcagRatio`, `adjustToWcagRatioFromL`, `generateContrastPalettes`). -/

structure ColorRGB where
  r : ℚ
  g : ℚ
  b : ℚ
deriving DecidableEq, Repr, Inhabited

structure HSL where
  h : ℚ
  s : ℚ
  l : ℚ
deriving DecidableEq, Repr

def hexToRgb (hex : String) : ColorRGB :=
  let cs := hex.toList
  { r := (hexPairVal (cs.getD 1 '0') (cs.getD 2 '0') : ℚ) / 255
    g := (hexPairVal (cs.getD 3 '0') (cs.getD 4 '0') : ℚ) / 255
    b := (hexPairVal (cs.getD 5 '0') (cs.getD 6 '0') : ℚ) / 255 }

/-- This module's `rgbToHex` clamps the rounded byte into `[0, 255]`. -/
def rgbToHex (c : ColorRGB) : String :=
  let f := fun (v : ℚ) => byteToHexStr (max 0 (min 255 (jsRound (v * 255)))).toNat
  String.mk ('#' :: (f c.r ++ f c.g ++ f c.b))

def linearize (M : JsMath) (c : ℚ) : ℚ :=
  if c ≤ 0.04045 then c / 12.92 else M.powf ((c + 0.055) / 1.055) 2.4

def delinearize (M : JsMath) (c : ℚ) : ℚ :=
  if c ≤ 0.0031308 then 12.92 * c else 1.055 * M.powf c (1/2.4) - 0.055

def lerp (a b t : ℚ) : ℚ := a + (b - a) * t

/-- `clamp(v, min = 0, max = 1)`. -/
def clampC (v : ℚ) (lo : ℚ := 0) (hi : ℚ := 1) : ℚ := max lo (min hi v)

def white : ColorRGB := { r := 1, g := 1, b := 1 }

def black : ColorRGB := { r := 0, g := 0, b := 0 }

def relativeLuminance (M : JsMath) (c : ColorRGB) : ℚ :=
  0.2126 * linearize M c.r + 0.7152 * linearize M c.g + 0.0722 * linearize M c.b

def wcagContrastRatio (M : JsMath) (c1 c2 : ColorRGB) : ℚ :=
  let l1 := relativeLuminance M c1
  let l2 := relativeLuminance M c2
  (max l1 l2 + 0.05) / (min l1 l2 + 0.05)

/-- APCA Lc value (soft-clip of near-black luminance, asymmetric exponents,
low-contrast deadband). -/
def apcaContrast (M : JsMath) (textColor bgColor : ColorRGB) : ℚ :=
  let toY := fun (c : ColorRGB) =>
    0.2126729 * M.powf c.r 2.4 + 0.7151522 * M.powf c.g 2.4 + 0.072175 * M.powf c.b 2.4
  let Ytxt0 := toY textColor
  let Ybg0 := toY bgColor
  let Ytxt := if 0.022 < Ytxt0 then Ytxt0 else Ytxt0 + M.powf (0.022 - Ytxt0) 1.414
  let Ybg := if 0.022 < Ybg0 then Ybg0 else Ybg0 + M.powf (0.022 - Ybg0) 1.414
  if |Ybg - Ytxt| < 0.0005 then 0
  else if Ytxt < Ybg then
    let Sapc := (M.powf Ybg 0.56 - M.powf Ytxt 0.57) * 1.14
    if Sapc < 0.1 then 0 else (Sapc - 0.027) * 100
  else
    let Sapc := (M.powf Ybg 0.65 - M.powf Ytxt 0.62) * 1.14
    if -0.1 < Sapc then 0 else (Sapc + 0.027) * 100

def rgbToHsl (c : ColorRGB) : HSL :=
  let mx := max c.r (max c.g c.b)
  let mn := min c.r (min c.g c.b)
  let l := (mx + mn) / 2
  if mx = mn then { h := 0, s := 0, l := l }
  else
    let d := mx - mn
    let s := d / (if 0.5 < l then 2 - mx - mn else mx + mn)
    let h := if mx = c.r then (c.g - c.b) / d + (if c.g < c.b then 6 else 0)
      else if mx = c.g then (c.b - c.r) / d + 2
      else (c.r - c.g) / d + 4
    { h := h * 60, s := s, l := l }

def hslToRgb (hs : HSL) : ColorRGB :=
  let c := (1 - |2 * hs.l - 1|) * hs.s
  let x := c * (1 - |jsMod (hs.h / 60) 2 - 1|)
  let m := hs.l - c / 2
  let t : ℚ × ℚ × ℚ :=
    if hs.h < 60 then (c, x, 0)
    else if hs.h < 120 then (x, c, 0)
    else if hs.h < 180 then (0, c, x)
    else if hs.h < 240 then (0, x, c)
    else if hs.h < 300 then (x, 0, c)
    else (c, 0, x)
  { r := t.1 + m, g := t.2.1 + m, b := t.2.2 + m }

/-- The downward half of `adjustToWcagRatio`'s search: state
`(best, lo, hi)`; a passing midpoint becomes `best` and the new `hi`. -/
def wSearchDark (M : JsMath) (refc : ColorRGB) (target : ℚ) (hs : HSL) :
    ℕ → Option ColorRGB × ℚ × ℚ → Option ColorRGB × ℚ × ℚ
  | 0, st => st
  | f + 1, (best, lo, hi) =>
    let mid := (lo + hi) / 2
    let cand := hslToRgb { h := hs.h, s := hs.s, l := mid }
    if target ≤ wcagContrastRatio M cand refc then
      wSearchDark M refc target hs f (some cand, lo, mid)
    else wSearchDark M refc target hs f (best, mid, hi)

/-- The upward half: a passing midpoint becomes `best` and the new `lo`. -/
def wSearchLight (M : JsMath) (refc : ColorRGB) (target : ℚ) (hs : HSL) :
    ℕ → Option ColorRGB × ℚ × ℚ → Option ColorRGB × ℚ × ℚ
  | 0, st => st
  | f + 1, (best, lo, hi) =>
    let mid := (lo + hi) / 2
    let cand := hslToRgb { h := hs.h, s := hs.s, l := mid }
    if target ≤ wcagContrastRatio M cand refc then
      wSearchLight M refc target hs f (some cand, mid, hi)
    else wSearchLight M refc target hs f (best, lo, mid)

/-- The shared fallback: the nearer of pure black / pure white
(`wcagContrastRatio(black, ref) >= wcagContrastRatio(white, ref) ? black : white`). -/
def nearestExtreme (M : JsMath) (reference : ColorRGB) : ColorRGB :=
  if wcagContrastRatio M white reference ≤ wcagContrastRatio M black reference
  then black else white

/-- The shared `if (best && ratio(best) >= target) return best` pattern:
return `best` when it re-passes, else continue with `next`. -/
def acceptOr (M : JsMath) (reference : ColorRGB) (target : ℚ)
    (best : Option ColorRGB) (next : ColorRGB) : ColorRGB :=
  match best with
  | some b => if target ≤ wcagContrastRatio M b reference then b else next
  | none => next

/-- Standard WCAG adjuster with early return: return the input when it
already passes; otherwise search darker, then lighter, returning `best` only
when re-checked against the target; otherwise fall back to the nearer of
pure black / pure white. -/
def adjustToWcagRatio (M : JsMath) (color reference : ColorRGB) (target : ℚ)
    (maxIter : ℕ := 48) : ColorRGB :=
  if target ≤ wcagContrastRatio M color reference then color
  else
    let hs := rgbToHsl color
    let s1 := (wSearchDark M reference target hs maxIter (none, 0, hs.l)).1
    acceptOr M reference target s1
      (acceptOr M reference target
        ((wSearchLight M reference target hs maxIter (s1, hs.l, 1)).1)
        (nearestExtreme M reference))

/-- One-directional forced search of `adjustToWcagRatioFromL` (no early
return), converging toward `startL`. -/
def wSearchFrom (M : JsMath) (hue sat : ℚ) (refc : ColorRGB) (target : ℚ)
    (direction : String) :
    ℕ → Option ColorRGB × ℚ × ℚ → Option ColorRGB × ℚ × ℚ
  | 0, st => st
  | f + 1, (best, lo, hi) =>
    let mid := (lo + hi) / 2
    let cand := hslToRgb { h := hue, s := sat, l := mid }
    if target ≤ wcagContrastRatio M cand refc then
      if direction = "dark" then
        wSearchFrom M hue sat refc target direction f (some cand, mid, hi)
      else wSearchFrom M hue sat refc target direction f (some cand, lo, mid)
    else
      if direction = "dark" then
        wSearchFrom M hue sat refc target direction f (best, lo, mid)
      else wSearchFrom M hue sat refc target direction f (best, mid, hi)

/-- Forced-search variant used by `highContrast`: search `[0, startL]`
(`"dark"`) or `[startL, 1]` (`"light"`), return `best` only when it
re-passes, else the nearer extreme. -/
def adjustToWcagRatioFromL (M : JsMath) (hue sat startL : ℚ)
    (reference : ColorRGB) (target : ℚ) (direction : String)
    (maxIter : ℕ := 48) : ColorRGB :=
  let lo := if direction = "dark" then 0 else startL
  let hi := if direction = "dark" then startL else 1
  acceptOr M reference target
    ((wSearchFrom M hue sat reference target direction maxIter (none, lo, hi)).1)
    (nearestExtreme M reference)

def simulateDeuteranopia (M : JsMath) (c : ColorRGB) : ColorRGB :=
  let lr := linearize M c.r
  let lg := linearize M c.g
  let lb := linearize M c.b
  { r := delinearize M (clampC (0.29031 * lr + 0.70969 * lg + 0.0 * lb))
    g := delinearize M (clampC (0.29031 * lr + 0.70969 * lg + 0.0 * lb))
    b := delinearize M (clampC (-0.02197 * lr + 0.02197 * lg + 1.0 * lb)) }

def simulateProtanopia (M : JsMath) (c : ColorRGB) : ColorRGB :=
  let lr := linearize M c.r
  let lg := linearize M c.g
  let lb := linearize M c.b
  { r := delinearize M (clampC (0.10889 * lr + 0.89111 * lg + 0.0 * lb))
    g := delinearize M (clampC (0.10889 * lr + 0.89111 * lg + 0.0 * lb))
    b := delinearize M (clampC (0.00452 * lr - 0.00452 * lg + 1.0 * lb)) }

def euclidean (M : JsMath) (a b : ColorRGB) : ℚ :=
  M.sqrt ((a.r - b.r) ^ 2 + (a.g - b.g) ^ 2 + (a.b - b.b) ^ 2)

def isDistinguishableUnderCB (M : JsMath) (c1 c2 : ColorRGB)
    (threshold : ℚ := 0.12) : Bool :=
  threshold < euclidean M (simulateDeuteranopia M c1) (simulateDeuteranopia M c2) ∨
    threshold < euclidean M (simulateProtanopia M c1) (simulateProtanopia M c2)

structure ContrastOutput where
  contrastScale : List String
  accessible : List String
  wcag : List String
  apca : List String
  colorBlindSafe : List String
  colorTokenized : List String
  highContrast : List String
deriving DecidableEq, Repr

/-- Sub-output 1, `contrastScale`.  (For `x = 1` the `i / (x − 1)` ramp
divides by zero, `NaN` in JavaScript, `0` in `ℚ`; no theorem depends on this
field.) -/
def contrastScaleList (M : JsMath) (hs : HSL) (x : ℕ) : List String :=
  arrayFrom x fun i =>
    let t := (i : ℚ) / ((x : ℚ) - 1)
    rgbToHex (hslToRgb { h := hs.h, s := hs.s, l := M.powf t 0.8 })

/-- One slot of sub-output 2 (`Math.ceil(x/2)` is `(x+1)/2`). -/
def accessibleSlot (M : JsMath) (hs : HSL) (x i : ℕ) : String :=
  let half : ℕ := (x + 1) / 2
  let isEven := i % 2 = 0
  let l := if isEven then lerp 0.05 0.35 (((i : ℚ) / 2) / half)
    else lerp 0.88 0.98 (((i / 2 : ℕ) : ℚ) / half)
  let candidate := hslToRgb { h := hs.h, s := hs.s * 0.6, l := l }
  let pair := if isEven then hslToRgb { h := hs.h, s := hs.s * 0.1, l := 0.96 }
    else hslToRgb { h := hs.h, s := hs.s * 0.8, l := 0.15 }
  rgbToHex (adjustToWcagRatio M candidate pair 4.5)

/-- Sub-output 2, `accessible`: alternating FG/BG pairs adjusted to 4.5:1. -/
def accessibleList (M : JsMath) (hs : HSL) (x : ℕ) : List String :=
  arrayFrom x (accessibleSlot M hs x)

/-- The fixed `(bg, ratio, startL)` tiers of sub-output 3. -/
def wcagTargets : List (ColorRGB × ℚ × ℚ) :=
  [(white, 4.5, 0.2), (white, 7.0, 0.1), (black, 4.5, 0.8), (black, 7.0, 0.9)]

/-- One slot of sub-output 3. -/
def wcagSlot (M : JsMath) (hs : HSL) (i : ℕ) : String :=
  let tg := wcagTargets.getD (i % 4) (white, 4.5, 0.2)
  let cycle : ℕ := i / 4
  let sFactor := clampC (1 - (cycle : ℚ) * 0.3)
  let lShift := (cycle : ℚ) * (if tg.2.2 < 0.5 then 0.08 else -0.08)
  let candidate := hslToRgb
    { h := hs.h, s := hs.s * sFactor, l := clampC (tg.2.2 + lShift) }
  rgbToHex (adjustToWcagRatio M candidate tg.1 tg.2.1)

/-- Sub-output 3, `wcag`: fixed AA/AAA tiers with per-cycle drift. -/
def wcagList (M : JsMath) (hs : HSL) (x : ℕ) : List String :=
  arrayFrom x fun i => wcagSlot M hs i

/-- Sub-output 4, `apca` (same `x = 1` caveat as `contrastScale`). -/
def apcaList (M : JsMath) (hs : HSL) (x : ℕ) : List String :=
  let bgWhite : ColorRGB := { r := 1, g := 1, b := 1 }
  arrayFrom x fun i =>
    let t := (i : ℚ) / ((x : ℚ) - 1)
    let targetLc := lerp 30 90 t
    let p := (List.range 48).foldl
      (fun (p : ℚ × ℚ) _ =>
        let mid := (p.1 + p.2) / 2
        let cand := hslToRgb { h := hs.h, s := hs.s, l := mid }
        if targetLc < |apcaContrast M cand bgWhite| then (mid, p.2)
        else (p.1, mid))
      (0, 1)
    rgbToHex (hslToRgb { h := hs.h, s := hs.s, l := (p.1 + p.2) / 2 })

/-- Sub-output 5, `colorBlindSafe`. -/
def colorBlindSafeList (M : JsMath) (hs : HSL) (x : ℕ) : List String :=
  let safeHues : List ℚ := [202, 27, 56, 180, 291, 343, 120, 240, 30]
  (List.range x).foldl
    (fun (acc : List String) i =>
      let safeHue := safeHues.getD (i % 9) 202
      let blendedHue := lerp hs.h safeHue 0.65
      let l := lerp 0.25 0.75 ((i : ℚ) / max ((x : ℚ) - 1) 1)
      let swatch := hslToRgb { h := blendedHue, s := clampC hs.s 0.4 0.85, l := l }
      let swatch :=
        if 0 < i ∧ ¬ isDistinguishableUnderCB M swatch (hexToRgb (acc.getLastD ""))
        then hslToRgb { h := blendedHue, s := hs.s, l := clampC (l + 0.15) }
        else swatch
      acc ++ [rgbToHex swatch])
    []

/-- Sub-output 6, `colorTokenized` — token roles as `(l, s, h?)` (the `name`
field of the source is unused in the output). -/
def colorTokenizedList (M : JsMath) (hs : HSL) (x : ℕ) : List String :=
  let tokenRoles : List (ℚ × ℚ × Option ℚ) :=
    [ (0.97, 0.08, none), (0.93, 0.12, none), (0.8, 0.18, none)
    , (0.65, 0.25, none), (0.45, hs.s, none), (0.35, hs.s, none)
    , (0.22, hs.s, none), (0.98, 0.05, none), (0.4, 0.85, some 0)
    , (0.35, 0.6, some 142) ]
  arrayFrom x fun i =>
    let tr := tokenRoles.getD (i % 10) (0.97, 0.08, none)
    rgbToHex (hslToRgb { h := tr.2.2.getD hs.h, s := tr.2.1, l := tr.1 })

/-- One slot of sub-output 7. -/
def highContrastSlot (M : JsMath) (hs : HSL) (x i : ℕ) : String :=
  let darkSlots : ℕ := (x + 1) / 2
  let lightSlots := x - darkSlots
  if i < darkSlots then
    let t := (i : ℚ) / max ((darkSlots : ℚ) - 1) 1
    let startL := lerp 0.05 0.28 t
    let s := clampC (lerp hs.s 0 t) 0 1
    rgbToHex (adjustToWcagRatioFromL M hs.h s startL white 7.0 "dark")
  else
    let j := i - darkSlots
    let t := (j : ℚ) / max ((lightSlots : ℚ) - 1) 1
    let startL := lerp 0.65 0.98 t
    let s := clampC (hs.s * 0.7) 0.2 0.8
    rgbToHex (adjustToWcagRatioFromL M hs.h s startL black 7.0 "light")

/-- Sub-output 7, `highContrast`: per-slot forced search (dark half against
white, light half against black, both at 7:1). -/
def highContrastList (M : JsMath) (hs : HSL) (x : ℕ) : List String :=
  arrayFrom x (highContrastSlot M hs x)

/-- `generateContrastPalettes` — the seven accessibility sub-outputs (each
extracted above as a named list, mirroring the source's section blocks);
`{}` (no non-empty input array) is `none`. -/
def generateContrastPalettes (M : JsMath) (input : List (String × List String))
    (x : ℕ := 9) : Option ContrastOutput :=
  match input.find? (fun e => ¬ e.2.isEmpty) with
  | none => none
  | some entry =>
    let base := hexToRgb (entry.2.headD "")
    let hs := rgbToHsl base
    some { contrastScale := contrastScaleList M hs x
           accessible := accessibleList M hs x
           wcag := wcagList M hs x
           apca := apcaList M hs x
           colorBlindSafe := colorBlindSafeList M hs x
           colorTokenized := colorTokenizedList M hs x
           highContrast := highContrastList M hs x }

/-- The `accessible` list of the output (`[]` when the generator returns `{}`). -/
def accessibleOf (M : JsMath) (input : List (String × List String)) (x : ℕ) :
    List String :=
  match generateContrastPalettes M input x with
  | none => []
  | some o => o.accessible

/-- The `wcag` list of the output. -/
def wcagOf (M : JsMath) (input : List (String × List String)) (x : ℕ) :
    List String :=
  match generateContrastPalettes M input x with
  | none => []
  | some o => o.wcag

/-- The `highContrast` list of the output. -/
def highContrastOf (M : JsMath) (input : List (String × List String)) (x : ℕ) :
    List String :=
  match generateContrastPalettes M input x with
  | none => []
  | some o => o.highContrast

end Contrast

namespace Algo

/-! ## `AlgorithmicGenerator.ts` — the seeded PRNG (`mulberry32`),
`seedFromHex`, and the seeded `random` palette.  The 32-bit integer
operations of JavaScript are modelled exactly. -/

/-- JavaScript `ToUint32`. -/
def toUint32 (z : ℤ) : ℕ := (z % 4294967296).toNat

/-- JavaScript `ToInt32`. -/
def toInt32 (z : ℤ) : ℤ :=
  let u := z % 4294967296
  if u < 2147483648 then u else u - 4294967296

/-- `Math.imul` — 32-bit signed multiplication. -/
def imul (a b : ℤ) : ℤ := toInt32 (a * b)

/-- JavaScript `^` on numbers (int32 bitwise xor). -/
def xor32 (a b : ℤ) : ℤ := toInt32 ((toUint32 a ^^^ toUint32 b : ℕ) : ℤ)

/-- JavaScript `|` on numbers (int32 bitwise or). -/
def or32 (a b : ℤ) : ℤ := toInt32 ((toUint32 a ||| toUint32 b : ℕ) : ℤ)

/-- One step of the `mulberry32` closure: the captured state is the
accumulated `s` (an exact integer), the result the drawn value in `[0,1)`. -/
def mulberryNext (s : ℕ) : ℕ × ℚ :=
  let s1 := s + 0x6D2B79F5
  let a := xor32 (s1 : ℤ) ((toUint32 (s1 : ℤ) >>> 15 : ℕ) : ℤ)
  let b := or32 (s1 : ℤ) 1
  let z1 := imul a b
  let c := xor32 z1 ((toUint32 z1 >>> 7 : ℕ) : ℤ)
  let d := or32 z1 61
  let z2 := xor32 z1 (z1 + imul c d)
  let z3 := xor32 z2 ((toUint32 z2 >>> 14 : ℕ) : ℤ)
  (s1, ((toUint32 z3 : ℕ) : ℚ) / 4294967296)

/-- `seedFromHex` — the 31-ary hash of characters 1…6; a non-digit (or a
missing character) makes the accumulator `NaN`, which `| 0` turns into `0`. -/
def seedFromHex (hex : String) : ℤ :=
  let cs := hex.toList
  |((List.range' 1 6).foldl
    (fun h i =>
      match (cs.get? i).bind hexDigitVal with
      | some d => toInt32 (imul 31 h + d)
      | none => 0)
    0)|

def lerp (a b t : ℚ) : ℚ := a + (b - a) * t

/-- `lchToHex` of the AlgorithmicGenerator.  Its local copies of
`oklchToOklab`, `oklabToRgb` and `rgbToHex` are textually identical to the
`ImageGenerator` ones, which the embedding reuses. -/
def lchToHex (M : JsMath) (L C H : ℚ) : String :=
  let a := C * M.cos (H * M.pi / 180)
  let b := C * M.sin (H * M.pi / 180)
  ImageGen.rgbToHex (ImageGen.oklabToRgb M { L := L, a := a, b := b })

/-- The element loop of `randomPalette`: three sequential draws per swatch
(`L`, `C`, `H` in object-literal order). -/
def rpGo (M : JsMath) : ℕ → ℕ → List String
  | 0, _ => []
  | m + 1, s =>
    let p1 := mulberryNext s
    let p2 := mulberryNext p1.1
    let p3 := mulberryNext p2.1
    lchToHex M (lerp 0.35 0.75 p1.2) (lerp 0.08 0.2 p2.2) (p3.2 * 360) ::
      rpGo M m p3.1

/-- `randomPalette` — seeded by `seedFromHex(base)` (the `makePrng` closure
starts from `seed >>> 0`); no ambient randomness is consumed. -/
def randomPalette (M : JsMath) (base : String) (n : ℕ) : List String :=
  rpGo M n (toUint32 (seedFromHex base))

end Algo

/-! ## Helper lemmas -/

theorem insertStable_length (le : α → α → Bool) (x : α) (l : List α) :
    (insertStable le x l).length = l.length + 1 := by
  induction l with
  | nil => rfl
  | cons y ys ih =>
    simp only [insertStable]
    split
    · simp [ih]
    · simp

theorem mem_insertStable (le : α → α → Bool) (x a : α) (l : List α) :
    a ∈ insertStable le x l ↔ a = x ∨ a ∈ l := by
  induction l with
  | nil => simp [insertStable]
  | cons y ys ih =>
    simp only [insertStable]
    split <;> simp only [List.mem_cons, ih] <;> tauto

theorem jsSortBy_foldl_length (le : α → α → Bool) (l acc : List α) :
    (l.foldl (fun acc x => insertStable le x acc) acc).length =
      acc.length + l.length := by
  induction l generalizing acc with
  | nil => simp
  | cons y ys ih =>
    simp only [List.foldl_cons, List.length_cons]
    rw [ih, insertStable_length]
    omega

theorem jsSortBy_length (le : α → α → Bool) (l : List α) :
    (jsSortBy le l).length = l.length := by
  simp [jsSortBy, jsSortBy_foldl_length]

theorem mem_jsSortBy_foldl (le : α → α → Bool) (a : α) (l acc : List α) :
    a ∈ l.foldl (fun acc x => insertStable le x acc) acc ↔ a ∈ acc ∨ a ∈ l := by
  induction l generalizing acc with
  | nil => simp
  | cons y ys ih =>
    simp only [List.foldl_cons]
    rw [ih]
    rw [mem_insertStable]
    simp
    tauto

theorem mem_jsSortBy (le : α → α → Bool) (a : α) (l : List α) :
    a ∈ jsSortBy le l ↔ a ∈ l := by
  simp [jsSortBy, mem_jsSortBy_foldl]

theorem headD_mem {l : List α} (d : α) (h : l ≠ []) : l.headD d ∈ l := by
  cases l with
  | nil => exact absurd rfl h
  | cons x xs => simp

theorem arrayFrom_length (n : ℕ) (f : ℕ → α) : (arrayFrom n f).length = n := by
  simp [arrayFrom]

theorem Radium.generatePalette_length (M : JsMath) (key : String)
    (lch : Radium.LCH) (n : ℕ) :
    (Radium.generatePalette M key lch n).length = max n 1 := by
  unfold Radium.generatePalette
  by_cases h : 1 < n
  · have hmax : max n 1 = n := by omega
    simp only [if_pos h]
    split
    · simp [Radium.buildTintShadeRamp, arrayFrom, hmax]
    · split
      · simp [Radium.buildMonochromaticRamp, arrayFrom, hmax]
      · split
        · simp [Radium.buildTintShadeRamp, arrayFrom, hmax]
        · split
          · simp [Radium.buildFromOffsets, arrayFrom, hmax]
          · simp [Radium.buildEvenlySpaced, arrayFrom, hmax]
  · have hmax : max n 1 = 1 := by omega
    simp only [if_neg h]
    split <;> simp [hmax]

/-- C2 (amended): `generateRadiumColors` preserves the key sequence, and for
every key the output array's length is `max (input length) 1` — equal to the
input length for non-empty arrays, but `1` (the single-swatch path) when the
input array is empty. -/
theorem Radium.generateRadiumColors_structure (M : JsMath)
    (input : List (String × List String)) :
    (Radium.generateRadiumColors M input).map Prod.fst = input.map Prod.fst ∧
    (Radium.generateRadiumColors M input).map (fun e => e.2.length) =
      input.map (fun e => max e.2.length 1) := by
  constructor
  · simp [Radium.generateRadiumColors]
  · simp only [Radium.generateRadiumColors, List.map_map]
    exact List.map_congr_left fun e _ => Radium.generatePalette_length ..

/-- C2 (counterexample): on the palette map `{x: []}` the generator returns
an array of length `1` for key `x`, not length `0`, refuting exact per-key
length preservation for empty arrays. -/
theorem Radium.generateRadiumColors_empty_array_cex :
    (Radium.generateRadiumColors jsM0 [("x", [])]).map (fun e => (e.1, e.2.length)) =
      [("x", 1)] := by
  decide

theorem ImageGen.padToK_length (labs : List ImageGen.Lab) (k : ℕ) :
    (ImageGen.padToK labs k).length = k := by
  unfold ImageGen.padToK
  split
  · simp only [List.length_take]
    omega
  · simp only [List.length_append, List.length_map, List.length_range']
    omega

/-- C6: for every interpretation of the numeric primitives, every random
stream, every non-empty OKLab pixel list and every `k ≥ 1`, `kMeansCore`
returns exactly `k` colors (the final `padToK` pads or truncates to `k`). -/
theorem ImageGen.kMeansCore_returns_k (M : JsMath) (rand : ℕ → ℚ)
    (labs : List ImageGen.Lab) (k maxIter : ℕ) (hk : 1 ≤ k) (hne : labs ≠ []) :
    (ImageGen.kMeansCore M rand labs k maxIter).length = k := by
  unfold ImageGen.kMeansCore
  rw [if_neg (by simpa [List.isEmpty_iff] using hne)]
  exact ImageGen.padToK_length _ _

/-- C6 (witness): a singleton pixel sample with `k = 1`. -/
theorem ImageGen.kMeansCore_returns_k_witness :
    (1 : ℕ) ≤ 1 ∧ ([{ L := 0, a := 0, b := 0 }] : List ImageGen.Lab) ≠ [] ∧
      (ImageGen.kMeansCore jsM0 (fun _ => 0)
        [{ L := 0, a := 0, b := 0 }] 1 25).length = 1 :=
  ⟨le_refl 1, by decide,
    ImageGen.kMeansCore_returns_k jsM0 (fun _ => 0) _ 1 25 (le_refl 1) (by decide)⟩

theorem ImageGen.sampleFold_skip (M : JsMath) (data : List ℕ) (s : ℕ)
    (hA : ∀ n : ℕ, data.getD (4 * n + 3) 0 < 128) (js : List ℕ)
    (acc : ImageGen.PixelSample) :
    js.foldl (ImageGen.sampleStep M data (4 * s)) acc = acc := by
  induction js generalizing acc with
  | nil => rfl
  | cons j t ih =>
    simp only [List.foldl_cons]
    have h := hA (j * s)
    rw [show 4 * (j * s) + 3 = j * (4 * s) + 3 by ring] at h
    rw [ImageGen.sampleStep, if_pos h]
    exact ih acc

theorem ImageGen.samplePixels_empty (M : JsMath) (data : List ℕ)
    (hA : ∀ n : ℕ, data.getD (4 * n + 3) 0 < 128) :
    ImageGen.samplePixels M data = { rgbs := [], labs := [] } := by
  unfold ImageGen.samplePixels
  exact ImageGen.sampleFold_skip M data _ hA _ _

/-- C7: a degenerate RGBA buffer — empty, or with every pixel's alpha below
128 — makes `generateImagePalettes` return exactly `k` copies of
`"#000000"` for each of the ten algorithms (and the embedding is total, so
no exception is possible). -/
theorem ImageGen.generateImagePalettes_degenerate (M : JsMath) (rand : ℕ → ℚ)
    (square : Option (List String)) (k : ℕ) (data : List ℕ)
    (hLen : data.length % 4 = 0)
    (hA : ∀ j, j < data.length → data.getD (4 * j + 3) 0 < 128) :
    ImageGen.generateImagePalettes M rand square k (some data) =
      { kmeans := List.replicate k "#000000"
        medianCut := List.replicate k "#000000"
        dominant := List.replicate k "#000000"
        vibrant := List.replicate k "#000000"
        muted := List.replicate k "#000000"
        octree := List.replicate k "#000000"
        colorMoments := List.replicate k "#000000"
        neuralQuant := List.replicate k "#000000"
        histogram := List.replicate k "#000000"
        deltaE := List.replicate k "#000000" } := by
  have key : ∀ n : ℕ, data.getD (4 * n + 3) 0 < 128 := by
    intro n
    by_cases hn : n < data.length
    · exact hA n hn
    · rw [List.getD_eq_default]
      · norm_num
      · omega
  have hsp := ImageGen.samplePixels_empty M data key
  unfold ImageGen.generateImagePalettes
  simp [hsp, List.isEmpty]

/-- C7 (witness): a one-pixel fully transparent buffer. -/
theorem ImageGen.generateImagePalettes_degenerate_witness :
    ([0, 0, 0, 0] : List ℕ).length % 4 = 0 ∧
    (∀ j, j < ([0, 0, 0, 0] : List ℕ).length →
      ([0, 0, 0, 0] : List ℕ).getD (4 * j + 3) 0 < 128) ∧
    (ImageGen.generateImagePalettes jsM0 (fun _ => 0) (some ["#888888"]) 6
        (some [0, 0, 0, 0])).kmeans = List.replicate 6 "#000000" := by
  refine ⟨by decide, by decide, ?_⟩
  rw [ImageGen.generateImagePalettes_degenerate jsM0 (fun _ => 0)
    (some ["#888888"]) 6 [0, 0, 0, 0] (by decide) (by decide)]

unseal Rat.add Rat.sub Rat.mul Rat.inv Rat.ofScientific in
/-- C3 (counterexample): `kMeansCore` consumes ambient `Math.random` (in the
chroma-weighted subsample and the k-means++ seeding), so two calls with the
identical pixel list and `k` — differing only in the random values the calls
happen to draw — can return different palettes.  Here the draw that seeds
the first centroid picks pixel 0 in one run and pixel 1 in the other. -/
theorem ImageGen.kMeansCore_stream_dependent_cex :
    ImageGen.kMeansCore jsM0 (fun _ => 0)
        [{ L := 0, a := 0, b := 0 }, { L := 1, a := 0, b := 0 }] 1 25 ≠
      ImageGen.kMeansCore jsM0 (fun i => if i = 2 then 1/2 else 0)
        [{ L := 0, a := 0, b := 0 }, { L := 1, a := 0, b := 0 }] 1 25 := by
  decide

/-- C3 (amended): the seeded "random" generator is reproducible by
construction — `randomPalette` reads its base color only through the derived
seed `seedFromHex(base)` that drives the mulberry32 generator, and consumes
no ambient randomness (its embedding takes no random stream). -/
theorem Algo.randomPalette_seed_determined (M : JsMath) (h1 h2 : String)
    (n : ℕ) (h : Algo.seedFromHex h1 = Algo.seedFromHex h2) :
    Algo.randomPalette M h1 n = Algo.randomPalette M h2 n := by
  unfold Algo.randomPalette
  rw [h]

unseal Rat.add Rat.sub Rat.mul Rat.inv Rat.ofScientific in
/-- C3 (witness): two distinct strings whose hashes collide (an invalid
digit resets the accumulator to `0` via `NaN | 0`) produce identical
palettes. -/
theorem Algo.randomPalette_seed_determined_witness :
    Algo.seedFromHex "#0z1111" = Algo.seedFromHex "#5z1111" ∧
    Algo.randomPalette jsM0 "#0z1111" 2 = Algo.randomPalette jsM0 "#5z1111" 2 :=
  ⟨by decide, Algo.randomPalette_seed_determined jsM0 _ _ 2 (by decide)⟩

theorem Contrast.nearestExtreme_bw (M : JsMath) (reference : Contrast.ColorRGB) :
    Contrast.nearestExtreme M reference = Contrast.black ∨
    Contrast.nearestExtreme M reference = Contrast.white := by
  unfold Contrast.nearestExtreme
  split
  · exact Or.inl rfl
  · exact Or.inr rfl

theorem Contrast.acceptOr_spec (M : JsMath) (reference : Contrast.ColorRGB)
    (target : ℚ) (best : Option Contrast.ColorRGB) (next : Contrast.ColorRGB) :
    target ≤ Contrast.wcagContrastRatio M
        (Contrast.acceptOr M reference target best next) reference ∨
    Contrast.acceptOr M reference target best next = next := by
  cases best with
  | none => exact Or.inr rfl
  | some b =>
    simp only [Contrast.acceptOr]
    split
    · next h => exact Or.inl h
    · exact Or.inr rfl

theorem Contrast.acceptChain_spec (M : JsMath) (reference : Contrast.ColorRGB)
    (target : ℚ) (s1 s2 : Option Contrast.ColorRGB) :
    target ≤ Contrast.wcagContrastRatio M
        (Contrast.acceptOr M reference target s1
          (Contrast.acceptOr M reference target s2
            (Contrast.nearestExtreme M reference))) reference ∨
    Contrast.acceptOr M reference target s1
        (Contrast.acceptOr M reference target s2
          (Contrast.nearestExtreme M reference)) = Contrast.black ∨
    Contrast.acceptOr M reference target s1
        (Contrast.acceptOr M reference target s2
          (Contrast.nearestExtreme M reference)) = Contrast.white := by
  rcases Contrast.acceptOr_spec M reference target s1
      (Contrast.acceptOr M reference target s2 (Contrast.nearestExtreme M reference))
    with h | heq
  · exact Or.inl h
  · rw [heq]
    rcases Contrast.acceptOr_spec M reference target s2
        (Contrast.nearestExtreme M reference) with h | heq2
    · exact Or.inl h
    · rw [heq2]
      exact Or.inr (Contrast.nearestExtreme_bw M reference)

theorem Contrast.adjust_spec (M : JsMath) (color reference : Contrast.ColorRGB)
    (target : ℚ) (maxIter : ℕ) :
    target ≤ Contrast.wcagContrastRatio M
        (Contrast.adjustToWcagRatio M color reference target maxIter) reference ∨
    Contrast.adjustToWcagRatio M color reference target maxIter = Contrast.black ∨
    Contrast.adjustToWcagRatio M color reference target maxIter = Contrast.white := by
  unfold Contrast.adjustToWcagRatio
  split
  · next h => exact Or.inl h
  · exact Contrast.acceptChain_spec M reference target _ _

theorem Contrast.adjustFromL_spec (M : JsMath) (hue sat startL : ℚ)
    (reference : Contrast.ColorRGB) (target : ℚ) (direction : String)
    (maxIter : ℕ) :
    target ≤ Contrast.wcagContrastRatio M
        (Contrast.adjustToWcagRatioFromL M hue sat startL reference target
          direction maxIter) reference ∨
    Contrast.adjustToWcagRatioFromL M hue sat startL reference target
        direction maxIter = Contrast.black ∨
    Contrast.adjustToWcagRatioFromL M hue sat startL reference target
        direction maxIter = Contrast.white := by
  unfold Contrast.adjustToWcagRatioFromL
  rcases Contrast.acceptOr_spec M reference target
      ((Contrast.wSearchFrom M hue sat reference target direction maxIter
        (none, if direction = "dark" then 0 else startL,
          if direction = "dark" then startL else 1)).1)
      (Contrast.nearestExtreme M reference) with h | heq
  · exact Or.inl h
  · rw [heq]
    exact Or.inr (Contrast.nearestExtreme_bw M reference)

theorem Contrast.accessibleSlot_spec (M : JsMath) (hs : Contrast.HSL) (x i : ℕ) :
    ∃ rgb ref, Contrast.accessibleSlot M hs x i = Contrast.rgbToHex rgb ∧
      ((4.5 : ℚ) ≤ Contrast.wcagContrastRatio M rgb ref ∨
        rgb = Contrast.black ∨ rgb = Contrast.white) :=
  ⟨_, _, rfl, Contrast.adjust_spec M _ _ 4.5 48⟩

theorem Contrast.wcagTargets_cases (j : ℕ) :
    ((Contrast.wcagTargets.getD j (Contrast.white, 4.5, 0.2)).1 = Contrast.white ∨
      (Contrast.wcagTargets.getD j (Contrast.white, 4.5, 0.2)).1 = Contrast.black) ∧
    ((Contrast.wcagTargets.getD j (Contrast.white, 4.5, 0.2)).2.1 = 4.5 ∨
      (Contrast.wcagTargets.getD j (Contrast.white, 4.5, 0.2)).2.1 = 7.0) := by
  match j with
  | 0 => exact ⟨Or.inl rfl, Or.inl rfl⟩
  | 1 => exact ⟨Or.inl rfl, Or.inr rfl⟩
  | 2 => exact ⟨Or.inr rfl, Or.inl rfl⟩
  | 3 => exact ⟨Or.inr rfl, Or.inr rfl⟩
  | n + 4 =>
    rw [List.getD_eq_default]
    · exact ⟨Or.inl rfl, Or.inl rfl⟩
    · simp [Contrast.wcagTargets]

theorem Contrast.wcagSlot_spec (M : JsMath) (hs : Contrast.HSL) (i : ℕ) :
    ∃ rgb ref t, Contrast.wcagSlot M hs i = Contrast.rgbToHex rgb ∧
      ((t : ℚ) = 4.5 ∨ t = 7.0) ∧
      (ref = Contrast.white ∨ ref = Contrast.black) ∧
      (t ≤ Contrast.wcagContrastRatio M rgb ref ∨
        rgb = Contrast.black ∨ rgb = Contrast.white) :=
  ⟨_, _, _, rfl, (Contrast.wcagTargets_cases (i % 4)).2,
    (Contrast.wcagTargets_cases (i % 4)).1, Contrast.adjust_spec M _ _ _ 48⟩

theorem Contrast.highContrastSlot_spec (M : JsMath) (hs : Contrast.HSL) (x i : ℕ) :
    ∃ rgb ref, Contrast.highContrastSlot M hs x i = Contrast.rgbToHex rgb ∧
      (ref = Contrast.white ∨ ref = Contrast.black) ∧
      ((7.0 : ℚ) ≤ Contrast.wcagContrastRatio M rgb ref ∨
        rgb = Contrast.black ∨ rgb = Contrast.white) := by
  unfold Contrast.highContrastSlot
  dsimp only
  split
  · exact ⟨_, Contrast.white, rfl, Or.inl rfl,
      Contrast.adjustFromL_spec M _ _ _ _ 7.0 "dark" 48⟩
  · exact ⟨_, Contrast.black, rfl, Or.inr rfl,
      Contrast.adjustFromL_spec M _ _ _ _ 7.0 "light" 48⟩

theorem Contrast.genFields_eq (M : JsMath) (input : List (String × List String))
    (x : ℕ) (o : Contrast.ContrastOutput)
    (h : Contrast.generateContrastPalettes M input x = some o) :
    ∃ hs, o.accessible = Contrast.accessibleList M hs x ∧
      o.wcag = Contrast.wcagList M hs x ∧
      o.highContrast = Contrast.highContrastList M hs x := by
  unfold Contrast.generateContrastPalettes at h
  rcases hfind : input.find? (fun e => ¬ e.2.isEmpty) with _ | entry
  · simp only [hfind] at h
    exact Option.noConfusion h
  · simp only [hfind] at h
    injection h with h
    subst h
    exact ⟨_, rfl, rfl, rfl⟩

theorem Contrast.mem_accessibleOf (M : JsMath)
    (input : List (String × List String)) (x : ℕ) (hex : String)
    (hmem : hex ∈ Contrast.accessibleOf M input x) :
    ∃ rgb ref, hex = Contrast.rgbToHex rgb ∧
      ((4.5 : ℚ) ≤ Contrast.wcagContrastRatio M rgb ref ∨
        rgb = Contrast.black ∨ rgb = Contrast.white) := by
  unfold Contrast.accessibleOf at hmem
  rcases hgen : Contrast.generateContrastPalettes M input x with _ | o
  · rw [hgen] at hmem
    simp at hmem
  · rw [hgen] at hmem
    dsimp only at hmem
    obtain ⟨hs, ha, _, _⟩ := Contrast.genFields_eq M input x o hgen
    rw [ha] at hmem
    unfold Contrast.accessibleList arrayFrom at hmem
    obtain ⟨i, hi, rfl⟩ := List.mem_map.mp hmem
    exact Contrast.accessibleSlot_spec M hs x i

theorem Contrast.mem_wcagOf (M : JsMath)
    (input : List (String × List String)) (x : ℕ) (hex : String)
    (hmem : hex ∈ Contrast.wcagOf M input x) :
    ∃ rgb ref t, hex = Contrast.rgbToHex rgb ∧
      ((t : ℚ) = 4.5 ∨ t = 7.0) ∧
      (ref = Contrast.white ∨ ref = Contrast.black) ∧
      (t ≤ Contrast.wcagContrastRatio M rgb ref ∨
        rgb = Contrast.black ∨ rgb = Contrast.white) := by
  unfold Contrast.wcagOf at hmem
  rcases hgen : Contrast.generateContrastPalettes M input x with _ | o
  · rw [hgen] at hmem
    simp at hmem
  · rw [hgen] at hmem
    dsimp only at hmem
    obtain ⟨hs, _, hw, _⟩ := Contrast.genFields_eq M input x o hgen
    rw [hw] at hmem
    unfold Contrast.wcagList arrayFrom at hmem
    obtain ⟨i, hi, rfl⟩ := List.mem_map.mp hmem
    exact Contrast.wcagSlot_spec M hs i

theorem Contrast.mem_highContrastOf (M : JsMath)
    (input : List (String × List String)) (x : ℕ) (hex : String)
    (hmem : hex ∈ Contrast.highContrastOf M input x) :
    ∃ rgb ref, hex = Contrast.rgbToHex rgb ∧
      (ref = Contrast.white ∨ ref = Contrast.black) ∧
      ((7.0 : ℚ) ≤ Contrast.wcagContrastRatio M rgb ref ∨
        rgb = Contrast.black ∨ rgb = Contrast.white) := by
  unfold Contrast.highContrastOf at hmem
  rcases hgen : Contrast.generateContrastPalettes M input x with _ | o
  · rw [hgen] at hmem
    simp at hmem
  · rw [hgen] at hmem
    dsimp only at hmem
    obtain ⟨hs, _, _, hh⟩ := Contrast.genFields_eq M input x o hgen
    rw [hh] at hmem
    unfold Contrast.highContrastList arrayFrom at hmem
    obtain ⟨i, hi, rfl⟩ := List.mem_map.mp hmem
    exact Contrast.highContrastSlot_spec M hs x i

/-- C4: every return path of the WCAG-targeted sub-algorithms enforces the
slot's target ratio or falls back to pure black / pure white — for every
interpretation of the abstracted numeric primitives.  Stated for the two
search helpers and for every member of the `accessible` (4.5:1), `wcag`
(4.5:1 or 7:1 against white/black) and `highContrast` (7:1 against
white/black) outputs of `generateContrastPalettes`, each of which is the
hex encoding of a color with the guarantee. -/
theorem Contrast.wcag_target_guarantee :
    (∀ (M : JsMath) (color reference : Contrast.ColorRGB) (target : ℚ)
        (maxIter : ℕ),
      target ≤ Contrast.wcagContrastRatio M
          (Contrast.adjustToWcagRatio M color reference target maxIter) reference ∨
      Contrast.adjustToWcagRatio M color reference target maxIter =
          Contrast.black ∨
      Contrast.adjustToWcagRatio M color reference target maxIter =
          Contrast.white) ∧
    (∀ (M : JsMath) (hue sat startL : ℚ) (reference : Contrast.ColorRGB)
        (target : ℚ) (direction : String) (maxIter : ℕ),
      target ≤ Contrast.wcagContrastRatio M
          (Contrast.adjustToWcagRatioFromL M hue sat startL reference target
            direction maxIter) reference ∨
      Contrast.adjustToWcagRatioFromL M hue sat startL reference target
          direction maxIter = Contrast.black ∨
      Contrast.adjustToWcagRatioFromL M hue sat startL reference target
          direction maxIter = Contrast.white) ∧
    (∀ (M : JsMath) (input : List (String × List String)) (x : ℕ) (hex : String),
      hex ∈ Contrast.accessibleOf M input x →
        ∃ rgb ref, hex = Contrast.rgbToHex rgb ∧
          ((4.5 : ℚ) ≤ Contrast.wcagContrastRatio M rgb ref ∨
            rgb = Contrast.black ∨ rgb = Contrast.white)) ∧
    (∀ (M : JsMath) (input : List (String × List String)) (x : ℕ) (hex : String),
      hex ∈ Contrast.wcagOf M input x →
        ∃ rgb ref t, hex = Contrast.rgbToHex rgb ∧
          ((t : ℚ) = 4.5 ∨ t = 7.0) ∧
          (ref = Contrast.white ∨ ref = Contrast.black) ∧
          (t ≤ Contrast.wcagContrastRatio M rgb ref ∨
            rgb = Contrast.black ∨ rgb = Contrast.white)) ∧
    (∀ (M : JsMath) (input : List (String × List String)) (x : ℕ) (hex : String),
      hex ∈ Contrast.highContrastOf M input x →
        ∃ rgb ref, hex = Contrast.rgbToHex rgb ∧
          (ref = Contrast.white ∨ ref = Contrast.black) ∧
          ((7.0 : ℚ) ≤ Contrast.wcagContrastRatio M rgb ref ∨
            rgb = Contrast.black ∨ rgb = Contrast.white)) :=
  ⟨Contrast.adjust_spec, Contrast.adjustFromL_spec, Contrast.mem_accessibleOf,
    Contrast.mem_wcagOf, Contrast.mem_highContrastOf⟩

set_option maxRecDepth 100000 in
unseal Rat.add Rat.sub Rat.mul Rat.inv Rat.ofScientific in
/-- C4 (witness): the single `highContrast` slot of
`generateContrastPalettes` at `x = 1` on the palette `{square: ["#336699"]}`
is `"#000000"`, and the theorem yields its guarantee. -/
theorem Contrast.wcag_target_guarantee_witness :
    "#000000" ∈ Contrast.highContrastOf jsM0 [("square", ["#336699"])] 1 ∧
    (∃ rgb ref, "#000000" = Contrast.rgbToHex rgb ∧
      (ref = Contrast.white ∨ ref = Contrast.black) ∧
      ((7.0 : ℚ) ≤ Contrast.wcagContrastRatio jsM0 rgb ref ∨
        rgb = Contrast.black ∨ rgb = Contrast.white)) :=
  ⟨by decide,
    Contrast.wcag_target_guarantee.2.2.2.2 jsM0 [("square", ["#336699"])] 1
      "#000000" (by decide)⟩

theorem jsToLower_of_hexLower (c : Char) (h : isHexLowerDigit c = true) :
    jsToLower c = c := by
  unfold jsToLower
  rw [if_neg]
  unfold isHexLowerDigit at h
  simp only [decide_eq_true_eq] at h
  rintro ⟨hA, hZ⟩
  rcases h with ⟨h1, h2⟩ | ⟨h1, h2⟩
  · exact absurd (le_trans hA h2) (by decide)
  · exact absurd (le_trans h1 hZ) (by decide)

theorem isJsSpace_eq_false_of_hexLower (c : Char) (h : isHexLowerDigit c = true) :
    isJsSpace c = false := by
  unfold isHexLowerDigit at h
  simp only [decide_eq_true_eq] at h
  unfold isJsSpace
  rw [decide_eq_false_iff_not]
  rintro (rfl | rfl | rfl | rfl | rfl | rfl) <;>
    rcases h with ⟨h1, h2⟩ | ⟨h1, h2⟩ <;> revert h1 h2 <;> decide

theorem ne_hash_of_hexLower (c : Char) (h : isHexLowerDigit c = true) :
    (c = '#') = False := by
  unfold isHexLowerDigit at h
  simp only [decide_eq_true_eq] at h
  simp only [eq_iff_iff, iff_false]
  rintro rfl
  rcases h with ⟨h1, h2⟩ | ⟨h1, h2⟩ <;> revert h1 h2 <;> decide

theorem jsTrim_eq_self (l : List Char) (h : ∀ c ∈ l, isJsSpace c = false) :
    jsTrim l = l := by
  unfold jsTrim
  have h1 : l.dropWhile isJsSpace = l := by
    cases l with
    | nil => rfl
    | cons a t =>
      rw [List.dropWhile_cons, if_neg]
      simp [h a (by simp)]
  rw [h1]
  have h2 : l.reverse.dropWhile isJsSpace = l.reverse := by
    cases hr : l.reverse with
    | nil => rfl
    | cons a t =>
      rw [List.dropWhile_cons, if_neg]
      have ha : a ∈ l := by
        rw [← List.mem_reverse, hr]
        simp
      simp [h a ha]
  rw [h2, List.reverse_reverse]

theorem Sel.valid_shape (s : String) (h : Sel.isValidHex6 s = true) :
    ∃ cs, s.toList = '#' :: cs ∧ cs.length = 6 ∧ cs.all isHexLowerDigit = true := by
  unfold Sel.isValidHex6 at h
  split at h
  · next cs heq =>
    simp only [decide_eq_true_eq] at h
    exact ⟨cs, heq, h.1, h.2⟩
  · exact absurd h (by simp)

theorem map_jsToLower_of_hex (cs : List Char) (h : cs.all isHexLowerDigit = true) :
    cs.map jsToLower = cs := by
  induction cs with
  | nil => rfl
  | cons a t ih =>
    simp only [List.all_cons, Bool.and_eq_true] at h
    simp [jsToLower_of_hexLower a h.1, ih h.2]

theorem Sel.normaliseHex_of_valid (M : JsMath) (s : String)
    (h : Sel.isValidHex6 s = true) : Sel.normaliseHex M (.str s) = .ok s := by
  obtain ⟨cs, hlist, hlen, hall⟩ := Sel.valid_shape s h
  have hnospace : ∀ c ∈ ('#' :: cs), isJsSpace c = false := by
    intro c hc
    rcases List.mem_cons.mp hc with rfl | hc
    · decide
    · exact isJsSpace_eq_false_of_hexLower c (by
        rw [List.all_eq_true] at hall
        exact hall c hc)
  have hcs_ne : cs ≠ [] := by
    intro hc
    rw [hc] at hlen
    simp at hlen
  have hdrop : ('#' :: cs).dropWhile (fun c => decide (c = '#')) = cs := by
    rw [List.dropWhile_cons, if_pos (by simp)]
    cases cs with
    | nil => rfl
    | cons a t =>
      rw [List.dropWhile_cons, if_neg]
      simp only [List.all_cons, Bool.and_eq_true] at hall
      simp [ne_hash_of_hexLower a hall.1]
  unfold Sel.normaliseHex
  dsimp only
  rw [hlist, jsTrim_eq_self _ hnospace]
  rw [hdrop, map_jsToLower_of_hex cs hall]
  rw [if_neg (by 
    simp only [decide_eq_true_eq, not_and]
    intro h3
    rw [hlen] at h3
    exact absurd h3 (by decide))]
  rw [if_pos (by simp [hlen, hall])]
  have : s = String.mk ('#' :: cs) := by
    cases s with
    | mk data =>
      simp only [String.toList] at hlist
      rw [hlist]
  rw [this]
  rfl

theorem Sel.valid_of_normalise (M : JsMath) (v : Sel.JsValue) (h6 : String)
    (h : Sel.normaliseHex M v = .ok h6) : Sel.isValidHex6 h6 = true := by
  cases v with
  | str s =>
    unfold Sel.normaliseHex at h
    dsimp only at h
    split at h
    · next hc =>
      obtain ⟨a, b, c, heq⟩ := List.length_eq_three.mp hc.1
      have hall := hc.2
      rw [heq] at h hall
      simp only [List.all_cons, List.all_nil, Bool.and_eq_true] at hall
      injection h with h
      subst h
      simp only [Sel.isValidHex6, String.toList]
      simp [List.getD_cons_zero, List.getD_cons_succ, hall.1, hall.2.1, hall.2.2.1]
    · split at h
      · next hc =>
        have hlen := hc.1
        have hall := hc.2
        rw [List.length_map] at hlen
        rw [List.all_map, List.all_eq_true] at hall
        injection h with h
        subst h
        simp only [Sel.isValidHex6, String.toList]
        simp only [List.length_map, List.all_map, List.all_eq_true, List.mem_map,
          decide_eq_true_eq, Function.comp]
        refine ⟨hlen, fun x hx => hall x hx⟩
      · exact Except.noConfusion h
  | num q => exact Except.noConfusion h
  | bool b => exact Except.noConfusion h
  | null => exact Except.noConfusion h
  | undef => exact Except.noConfusion h
  | arr es => exact Except.noConfusion h

theorem hexDigitChar_hexLower (n : ℕ) : isHexLowerDigit (hexDigitChar n) = true := by
  unfold hexDigitChar
  split <;> decide

theorem Sel.isValidHex6_rgbToHexStr (r g b : ℚ) :
    Sel.isValidHex6 (Sel.rgbToHexStr r g b) = true := by
  simp only [Sel.rgbToHexStr, byteToHexStr, Sel.isValidHex6, String.toList]
  simp [hexDigitChar_hexLower]

theorem Sel.isValidHex6_lchToHex (M : JsMath) (L C H : ℚ) :
    Sel.isValidHex6 (Sel.lchToHex M L C H) = true :=
  Sel.isValidHex6_rgbToHexStr ..

theorem Sel.wcagContrast_ok (M : JsMath) (a b : String)
    (ha : Sel.isValidHex6 a = true) (hb : Sel.isValidHex6 b = true) :
    ∃ q, Sel.wcagContrast M a b = .ok q := by
  unfold Sel.wcagContrast
  simp only [Sel.normaliseHex_of_valid M a ha, Sel.normaliseHex_of_valid M b hb]
  exact ⟨_, rfl⟩

theorem Sel.bestTextOn_ok (M : JsMath) (bg : String)
    (h : Sel.isValidHex6 bg = true) : ∃ t, Sel.bestTextOn M bg = .ok t := by
  obtain ⟨q1, h1⟩ := Sel.wcagContrast_ok M bg "#ffffff" h (by decide)
  obtain ⟨q2, h2⟩ := Sel.wcagContrast_ok M bg "#111111" h (by decide)
  unfold Sel.bestTextOn
  simp only [h1, h2]
  exact ⟨_, rfl⟩

theorem Sel.mkRole_ok (M : JsMath) (nlHex role label weight hex : String)
    (derived : Bool) (hnl : Sel.isValidHex6 nlHex = true)
    (hh : Sel.isValidHex6 hex = true) :
    ∃ cr, Sel.mkRole M nlHex role label weight hex derived = .ok cr ∧
      cr.hex = hex ∧ cr.role = role ∧ cr.derived = derived := by
  obtain ⟨t, ht⟩ := Sel.bestTextOn_ok M hex hh
  obtain ⟨q, hq⟩ := Sel.wcagContrast_ok M hex nlHex hh hnl
  unfold Sel.mkRole
  simp only [ht, hq]
  exact ⟨_, rfl, rfl, rfl, rfl⟩

theorem Sel.sorted_headD_mem (cmp : Sel.InternalColor → Sel.InternalColor → Bool)
    (l px : List Sel.InternalColor) (hne : l ≠ []) (hsub : ∀ c ∈ l, c ∈ px) :
    (jsSortBy cmp l).headD Sel.dfltIC ∈ px := by
  have hlen : jsSortBy cmp l ≠ [] := by
    intro h0
    apply hne
    have hl := jsSortBy_length cmp l
    rw [h0] at hl
    exact List.length_eq_zero.mp hl.symm
  exact hsub _ ((mem_jsSortBy cmp _ l).mp (headD_mem _ hlen))

theorem Sel.pickHead_mem (cmp : Sel.InternalColor → Sel.InternalColor → Bool)
    (l px : List Sel.InternalColor) (hne : l ≠ []) (hsub : ∀ c ∈ l, c ∈ px) :
    Sel.pickHead cmp l ∈ px :=
  Sel.sorted_headD_mem cmp l px hne hsub

theorem Sel.fallback_ne (l q : List Sel.InternalColor) (hq : q ≠ []) :
    Sel.fallback l q ≠ [] := by
  unfold Sel.fallback
  split
  · next h => exact List.length_pos.mp h
  · exact hq

theorem Sel.mem_fallback (l q : List Sel.InternalColor) (c : Sel.InternalColor)
    (hc : c ∈ Sel.fallback l q) : c ∈ l ∨ c ∈ q := by
  unfold Sel.fallback at hc
  split at hc
  · exact Or.inl hc
  · exact Or.inr hc

theorem Sel.pickOr2_props (cmp : Sel.InternalColor → Sel.InternalColor → Bool)
    (guard inner : List Sel.InternalColor) (alt : String)
    (px : List Sel.InternalColor)
    (hg : 0 < guard.length → inner ≠ [])
    (hsub : ∀ c ∈ inner, c ∈ px)
    (hv : ∀ c ∈ px, Sel.isValidHex6 c.hex = true)
    (halt : Sel.isValidHex6 alt = true) :
    ((Sel.pickOr2 cmp guard inner alt).2 = false →
      (Sel.pickOr2 cmp guard inner alt).1 ∈ px.map (fun c => c.hex)) ∧
    Sel.isValidHex6 (Sel.pickOr2 cmp guard inner alt).1 = true := by
  unfold Sel.pickOr2
  split
  · next h =>
    have hm : Sel.pickHead cmp inner ∈ px := Sel.pickHead_mem cmp inner px (hg h) hsub
    exact ⟨fun _ => List.mem_map_of_mem _ hm, hv _ hm⟩
  · exact ⟨fun h => absurd h (by simp), halt⟩

theorem Sel.pickRoles_props (M : JsMath) (cfg : ℚ × ℚ × ℚ × ℚ × ℚ × ℚ × ℚ)
    (px : List Sel.InternalColor) (hne : px ≠ [])
    (hv : ∀ c ∈ px, Sel.isValidHex6 c.hex = true) :
    ((Sel.pickRoles M cfg px).nlHex ∈ px.map (fun c => c.hex)) ∧
    ((Sel.pickRoles M cfg px).mainHex ∈ px.map (fun c => c.hex)) ∧
    ((Sel.pickRoles M cfg px).ndDerived = false →
      (Sel.pickRoles M cfg px).ndHex ∈ px.map (fun c => c.hex)) ∧
    ((Sel.pickRoles M cfg px).shDerived = false →
      (Sel.pickRoles M cfg px).shHex ∈ px.map (fun c => c.hex)) ∧
    ((Sel.pickRoles M cfg px).acDerived = false →
      (Sel.pickRoles M cfg px).acHex ∈ px.map (fun c => c.hex)) ∧
    Sel.isValidHex6 (Sel.pickRoles M cfg px).nlHex = true ∧
    Sel.isValidHex6 (Sel.pickRoles M cfg px).mainHex = true ∧
    Sel.isValidHex6 (Sel.pickRoles M cfg px).ndHex = true ∧
    Sel.isValidHex6 (Sel.pickRoles M cfg px).shHex = true ∧
    Sel.isValidHex6 (Sel.pickRoles M cfg px).acHex = true := by
  unfold Sel.pickRoles
  dsimp only
  have hnl : Sel.pickHead (fun a b => decide (b.lch.L ≤ a.lch.L))
      (Sel.fallback (px.filter fun c => c.lch.C < cfg.1) px) ∈ px :=
    Sel.pickHead_mem _ _ px (Sel.fallback_ne _ px hne)
      (fun c hc => (Sel.mem_fallback _ px c hc).elim List.mem_of_mem_filter id)
  have hmain : Sel.pickHead (fun a b => decide (b.lch.C ≤ a.lch.C))
      (Sel.fallback (px.filter fun c => cfg.2.1 ≤ c.lch.L ∧ c.lch.L ≤ cfg.2.2.1)
        px) ∈ px :=
    Sel.pickHead_mem _ _ px (Sel.fallback_ne _ px hne)
      (fun c hc => (Sel.mem_fallback _ px c hc).elim List.mem_of_mem_filter id)
  refine ⟨List.mem_map_of_mem _ hnl, List.mem_map_of_mem _ hmain,
    ?_, ?_, ?_, hv _ hnl, hv _ hmain, ?_, ?_, ?_⟩
  · refine (Sel.pickOr2_props _ _ _ _ px ?_ ?_ hv ?_).1
    · exact fun h => List.length_pos.mp h
    · exact fun c hc => List.mem_of_mem_filter (List.mem_of_mem_filter hc)
    · exact Sel.isValidHex6_lchToHex ..
  · refine (Sel.pickOr2_props _ _ _ _ px ?_ ?_ hv ?_).1
    · exact fun h => Sel.fallback_ne _ _ (List.length_pos.mp h)
    · exact fun c hc => (Sel.mem_fallback _ _ c hc).elim
        (fun h2 => List.mem_of_mem_filter (List.mem_of_mem_filter h2))
        List.mem_of_mem_filter
    · exact Sel.isValidHex6_lchToHex ..
  · refine (Sel.pickOr2_props _ _ _ _ px ?_ ?_ hv ?_).1
    · exact fun h => Sel.fallback_ne _ _ (List.length_pos.mp h)
    · exact fun c hc => (Sel.mem_fallback _ _ c hc).elim
        (fun h2 => List.mem_of_mem_filter (List.mem_of_mem_filter h2))
        List.mem_of_mem_filter
    · exact Sel.isValidHex6_lchToHex ..
  · refine (Sel.pickOr2_props _ _ _ _ px ?_ ?_ hv ?_).2
    · exact fun h => List.length_pos.mp h
    · exact fun c hc => List.mem_of_mem_filter (List.mem_of_mem_filter hc)
    · exact Sel.isValidHex6_lchToHex ..
  · refine (Sel.pickOr2_props _ _ _ _ px ?_ ?_ hv ?_).2
    · exact fun h => Sel.fallback_ne _ _ (List.length_pos.mp h)
    · exact fun c hc => (Sel.mem_fallback _ _ c hc).elim
        (fun h2 => List.mem_of_mem_filter (List.mem_of_mem_filter h2))
        List.mem_of_mem_filter
    · exact Sel.isValidHex6_lchToHex ..
  · refine (Sel.pickOr2_props _ _ _ _ px ?_ ?_ hv ?_).2
    · exact fun h => Sel.fallback_ne _ _ (List.length_pos.mp h)
    · exact fun c hc => (Sel.mem_fallback _ _ c hc).elim
        (fun h2 => List.mem_of_mem_filter (List.mem_of_mem_filter h2))
        List.mem_of_mem_filter
    · exact Sel.isValidHex6_lchToHex ..

theorem Sel.selectCore_spec (M : JsMath) (cfg : ℚ × ℚ × ℚ × ℚ × ℚ × ℚ × ℚ)
    (px : List Sel.InternalColor) (hne : px ≠ [])
    (hv : ∀ c ∈ px, Sel.isValidHex6 c.hex = true) :
    ∃ r, Sel.selectCore M cfg px = .ok r ∧
      r.neutralLight.role = "neutralLight" ∧
      r.neutralDark.role = "neutralDark" ∧
      r.mainColor.role = "mainColor" ∧
      r.mainColorShade.role = "mainColorShade" ∧
      r.accentColor.role = "accentColor" ∧
      r.neutralLight.hex = (Sel.pickRoles M cfg px).nlHex ∧
      r.neutralLight.derived = false ∧
      r.neutralDark.hex = (Sel.pickRoles M cfg px).ndHex ∧
      r.neutralDark.derived = (Sel.pickRoles M cfg px).ndDerived ∧
      r.mainColor.hex = (Sel.pickRoles M cfg px).mainHex ∧
      r.mainColor.derived = false ∧
      r.mainColorShade.hex = (Sel.pickRoles M cfg px).shHex ∧
      r.mainColorShade.derived = (Sel.pickRoles M cfg px).shDerived ∧
      r.accentColor.hex = (Sel.pickRoles M cfg px).acHex ∧
      r.accentColor.derived = (Sel.pickRoles M cfg px).acDerived := by
  obtain ⟨-, -, -, -, -, v1, v2, v3, v4, v5⟩ := Sel.pickRoles_props M cfg px hne hv
  obtain ⟨r1, h1, h1h, h1r, h1d⟩ :=
    Sel.mkRole_ok M _ "neutralLight" "Neutral Light" "60%" _ false v1 v1
  obtain ⟨r2, h2, h2h, h2r, h2d⟩ :=
    Sel.mkRole_ok M _ "neutralDark" "Neutral Dark" "—" _
      (Sel.pickRoles M cfg px).ndDerived v1 v3
  obtain ⟨r3, h3, h3h, h3r, h3d⟩ :=
    Sel.mkRole_ok M _ "mainColor" "Main Color" "30%" _ false v1 v2
  obtain ⟨r4, h4, h4h, h4r, h4d⟩ :=
    Sel.mkRole_ok M _ "mainColorShade" "Main Color Shade" "—" _
      (Sel.pickRoles M cfg px).shDerived v1 v4
  obtain ⟨r5, h5, h5h, h5r, h5d⟩ :=
    Sel.mkRole_ok M _ "accentColor" "Accent Color" "10%" _
      (Sel.pickRoles M cfg px).acDerived v1 v5
  refine ⟨{ neutralLight := r1, neutralDark := r2, mainColor := r3
            mainColorShade := r4, accentColor := r5 },
    ?_, h1r, h2r, h3r, h4r, h5r, h1h, h1d, h2h, h2d, h3h, h3d,
    h4h, h4d, h5h, h5d⟩
  unfold Sel.selectCore
  simp only [bind, Except.bind, h1, h2, h3, h4, h5]
  rfl

theorem Sel.exceptBind_ok {α β : Type} {x : Except Sel.JsErr α}
    {f : α → Except Sel.JsErr β} {b : β} (h : x >>= f = .ok b) :
    ∃ a, x = .ok a ∧ f a = .ok b := by
  cases x with
  | ok a => exact ⟨a, rfl, h⟩
  | error e => exact Except.noConfusion (show Except.error e = Except.ok b from h)

theorem Sel.exceptBind_err {α β : Type} {x : Except Sel.JsErr α}
    {f : α → Except Sel.JsErr β} {e : Sel.JsErr} (h : x >>= f = .error e) :
    x = .error e ∨ ∃ a, x = .ok a ∧ f a = .error e := by
  cases x with
  | ok a => exact Or.inr ⟨a, rfl, h⟩
  | error e0 =>
    exact Or.inl (congrArg Except.error
      (Except.error.inj (show Except.error e0 = Except.error e from h)))

theorem Sel.normIC_ok (M : JsMath) (v : Sel.JsValue) (c : Sel.InternalColor)
    (h : Sel.normIC M v = .ok c) : Sel.normaliseHex M v = .ok c.hex := by
  unfold Sel.normIC at h
  obtain ⟨h6, h1, h2⟩ := Sel.exceptBind_ok h
  have hc : c = { hex := h6, lch := Sel.hexToLch M h6 } :=
    (Except.ok.inj (show Except.ok _ = Except.ok c from h2)).symm
  rw [hc, h1]

theorem Sel.normIC_err (M : JsMath) (v : Sel.JsValue) (e : Sel.JsErr)
    (h : Sel.normIC M v = .error e) : Sel.normaliseHex M v = .error e := by
  unfold Sel.normIC at h
  rcases Sel.exceptBind_err h with h1 | ⟨a, _, h2⟩
  · exact h1
  · exact Except.noConfusion (show Except.ok _ = Except.error e from h2)

theorem Sel.normIC_ok_of (M : JsMath) (v : Sel.JsValue) (h6 : String)
    (h : Sel.normaliseHex M v = .ok h6) :
    Sel.normIC M v = .ok { hex := h6, lch := Sel.hexToLch M h6 } := by
  unfold Sel.normIC
  rw [h]
  rfl

theorem Sel.mapM_normIC_ok_inv (M : JsMath) (ps : List Sel.JsValue)
    (px : List Sel.InternalColor) (h : ps.mapM (Sel.normIC M) = .ok px) :
    px.length = ps.length ∧
      ∀ c ∈ px, ∃ v ∈ ps, Sel.normaliseHex M v = .ok c.hex := by
  induction ps generalizing px with
  | nil =>
    rw [List.mapM_nil] at h
    have hpx : px = [] :=
      (Except.ok.inj (show Except.ok [] = Except.ok px from h)).symm
    subst hpx
    exact ⟨rfl, fun c hc => absurd hc (List.not_mem_nil c)⟩
  | cons v vs ih =>
    rw [List.mapM_cons] at h
    obtain ⟨c, hc, h2⟩ := Sel.exceptBind_ok h
    obtain ⟨cs, hcs, h3⟩ := Sel.exceptBind_ok h2
    have hpx : px = c :: cs :=
      (Except.ok.inj (show Except.ok (c :: cs) = Except.ok px from h3)).symm
    subst hpx
    obtain ⟨hlen, hmem⟩ := ih cs hcs
    refine ⟨by simp [hlen], ?_⟩
    intro d hd
    rcases List.mem_cons.mp hd with rfl | hd
    · exact ⟨v, List.mem_cons_self v vs, Sel.normIC_ok M v d hc⟩
    · obtain ⟨w, hw, hwn⟩ := hmem d hd
      exact ⟨w, List.mem_cons_of_mem v hw, hwn⟩

theorem Sel.mapM_normIC_total (M : JsMath) (ps : List Sel.JsValue)
    (hok : ∀ v ∈ ps, ∃ h6, Sel.normaliseHex M v = .ok h6) :
    ∃ px, ps.mapM (Sel.normIC M) = .ok px := by
  induction ps with
  | nil => exact ⟨[], by rw [List.mapM_nil]; rfl⟩
  | cons v vs ih =>
    obtain ⟨h6, hv⟩ := hok v (List.mem_cons_self v vs)
    obtain ⟨px, hpx⟩ := ih (fun w hw => hok w (List.mem_cons_of_mem v hw))
    refine ⟨{ hex := h6, lch := Sel.hexToLch M h6 } :: px, ?_⟩
    rw [List.mapM_cons, Sel.normIC_ok_of M v h6 hv]
    simp only [hpx]
    rfl

theorem Sel.mapM_normIC_err (M : JsMath) (ps : List Sel.JsValue) (e : Sel.JsErr)
    (h : ps.mapM (Sel.normIC M) = .error e) :
    ∃ v ∈ ps, Sel.normaliseHex M v = .error e := by
  induction ps with
  | nil =>
    rw [List.mapM_nil] at h
    exact Except.noConfusion (show Except.ok [] = Except.error e from h)
  | cons v vs ih =>
    rw [List.mapM_cons] at h
    rcases Sel.exceptBind_err h with h1 | ⟨c, _, h2⟩
    · exact ⟨v, List.mem_cons_self v vs, Sel.normIC_err M v e h1⟩
    · rcases Sel.exceptBind_err h2 with h3 | ⟨cs, _, h4⟩
      · obtain ⟨w, hw, hwn⟩ := ih h3
        exact ⟨w, List.mem_cons_of_mem v hw, hwn⟩
      · exact Except.noConfusion (show Except.ok _ = Except.error e from h4)

theorem Sel.normaliseHex_err_classify (M : JsMath) (v : Sel.JsValue)
    (e : Sel.JsErr) (h : Sel.normaliseHex M v = .error e) :
    (∃ s, v = .str s ∧
      e = .rangeError ("Invalid hex color: \"" ++ s ++
        "\" — expected \"#rgb\" or \"#rrggbb\"")) ∨
    ((∀ s, v ≠ .str s) ∧
      e = .typeError ("Color must be a string, got " ++ Sel.typeofName v ++
        ": " ++ Sel.jsonStringify M v)) := by
  cases v with
  | str s =>
    left
    refine ⟨s, rfl, ?_⟩
    unfold Sel.normaliseHex at h
    dsimp only at h
    split at h
    · exact Except.noConfusion (show Except.ok _ = Except.error e from h)
    · split at h
      · exact Except.noConfusion (show Except.ok _ = Except.error e from h)
      · exact (Except.error.inj
          (show Except.error (Sel.JsErr.rangeError _) = Except.error e from h)).symm
  | num q =>
    refine Or.inr ⟨fun s hs => Sel.JsValue.noConfusion hs, ?_⟩
    unfold Sel.normaliseHex at h
    exact (Except.error.inj
      (show Except.error (Sel.JsErr.typeError _) = Except.error e from h)).symm
  | bool b =>
    refine Or.inr ⟨fun s hs => Sel.JsValue.noConfusion hs, ?_⟩
    unfold Sel.normaliseHex at h
    exact (Except.error.inj
      (show Except.error (Sel.JsErr.typeError _) = Except.error e from h)).symm
  | null =>
    refine Or.inr ⟨fun s hs => Sel.JsValue.noConfusion hs, ?_⟩
    unfold Sel.normaliseHex at h
    exact (Except.error.inj
      (show Except.error (Sel.JsErr.typeError _) = Except.error e from h)).symm
  | undef =>
    refine Or.inr ⟨fun s hs => Sel.JsValue.noConfusion hs, ?_⟩
    unfold Sel.normaliseHex at h
    exact (Except.error.inj
      (show Except.error (Sel.JsErr.typeError _) = Except.error e from h)).symm
  | arr es =>
    refine Or.inr ⟨fun s hs => Sel.JsValue.noConfusion hs, ?_⟩
    unfold Sel.normaliseHex at h
    exact (Except.error.inj
      (show Except.error (Sel.JsErr.typeError _) = Except.error e from h)).symm

/-- **C5.** For every non-empty array whose entries all normalise successfully
(every valid hex colour, in particular singleton and two-element palettes),
`select60_30_10` returns `ok` — it never throws — and the result carries
exactly the five canonical roles `neutralLight`, `neutralDark`, `mainColor`,
`mainColorShade`, `accentColor`, under every interpretation of the ambient
floating-point primitives. -/
theorem Sel.select_ok_on_valid (M : JsMath) (ps : List Sel.JsValue)
    (opts : Sel.SelectOptions) (hne : ps ≠ [])
    (hok : ∀ v ∈ ps, ∃ h6, Sel.normaliseHex M v = .ok h6) :
    ∃ r, Sel.select60_30_10 M (.arr ps) opts = .ok r ∧
      r.neutralLight.role = "neutralLight" ∧
      r.neutralDark.role = "neutralDark" ∧
      r.mainColor.role = "mainColor" ∧
      r.mainColorShade.role = "mainColorShade" ∧
      r.accentColor.role = "accentColor" := by
  obtain ⟨px, hpx⟩ := Sel.mapM_normIC_total M ps hok
  obtain ⟨hlen, hmem⟩ := Sel.mapM_normIC_ok_inv M ps px hpx
  have hpxne : px ≠ [] := by
    intro h0
    apply hne
    apply List.length_eq_zero.mp
    rw [← hlen, h0]
    rfl
  have hval : ∀ c ∈ px, Sel.isValidHex6 c.hex = true := by
    intro c hc
    obtain ⟨v, _, hvn⟩ := hmem c hc
    exact Sel.valid_of_normalise M v c.hex hvn
  obtain ⟨r, hr, p1, p2, p3, p4, p5, -⟩ :=
    Sel.selectCore_spec M (Sel.mkCfg opts) px hpxne hval
  refine ⟨r, ?_, p1, p2, p3, p4, p5⟩
  unfold Sel.select60_30_10
  dsimp only
  rw [if_neg (fun h0 => hne (List.length_eq_zero.mp h0)), hpx]
  exact hr

theorem Sel.select_ok_on_valid_witness :
    ([Sel.JsValue.str "#abc"] ≠ ([] : List Sel.JsValue)) ∧
    (∃ r, Sel.select60_30_10 jsM0 (.arr [.str "#abc"]) {} = .ok r ∧
      r.neutralLight.role = "neutralLight" ∧
      r.neutralDark.role = "neutralDark" ∧
      r.mainColor.role = "mainColor" ∧
      r.mainColorShade.role = "mainColorShade" ∧
      r.accentColor.role = "accentColor") :=
  ⟨List.cons_ne_nil _ _,
    Sel.select_ok_on_valid jsM0 [.str "#abc"] {} (List.cons_ne_nil _ _)
      (by
        intro v hv
        rw [List.mem_singleton] at hv
        subst hv
        exact ⟨"#aabbcc", by rfl⟩)⟩

/-- **C9.** Every error `select60_30_10` returns falls into one of the three
descriptive validation classes of `specErrorClass`: the fixed `TypeError` when
the palette is not a non-empty array, a `TypeError` naming the received type
(via `typeof` and `JSON.stringify`) when an element is not a string, or the
`RangeError` quoting the offending value when a string element is not a valid
3- or 6-digit hex colour — never a generic low-level failure. -/
theorem Sel.select_error_classification (M : JsMath) (palette : Sel.JsValue)
    (opts : Sel.SelectOptions) (e : Sel.JsErr)
    (h : Sel.select60_30_10 M palette opts = .error e) :
    Sel.specErrorClass M palette e := by
  cases palette with
  | arr ps =>
    unfold Sel.select60_30_10 at h
    dsimp only at h
    split at h
    · next hlen =>
      refine Or.inl ⟨(Except.error.inj
          (show Except.error (Sel.JsErr.typeError _) = Except.error e from h)).symm,
        Or.inr ?_⟩
      rw [List.length_eq_zero.mp hlen]
    · next hlen =>
      rcases Sel.exceptBind_err h with h1 | ⟨px, hpx, h2⟩
      · obtain ⟨v, hv, hvn⟩ := Sel.mapM_normIC_err M ps e h1
        rcases Sel.normaliseHex_err_classify M v e hvn with ⟨s, rfl, he⟩ | ⟨hns, he⟩
        · exact Or.inr (Or.inr ⟨ps, s, rfl, hv, hvn, he⟩)
        · exact Or.inr (Or.inl ⟨ps, v, rfl, hv, hns, he⟩)
      · obtain ⟨hlen2, hmem⟩ := Sel.mapM_normIC_ok_inv M ps px hpx
        have hpxne : px ≠ [] := by
          intro h0
          apply hlen
          rw [← hlen2, h0]
          rfl
        have hval : ∀ c ∈ px, Sel.isValidHex6 c.hex = true := by
          intro c hc
          obtain ⟨v, _, hvn⟩ := hmem c hc
          exact Sel.valid_of_normalise M v c.hex hvn
        obtain ⟨r, hr, -⟩ := Sel.selectCore_spec M (Sel.mkCfg opts) px hpxne hval
        rw [h2] at hr
        exact Except.noConfusion (show Except.error e = Except.ok r from hr)
  | str s =>
    exact Or.inl ⟨(Except.error.inj
        (show Except.error (Sel.JsErr.typeError _) = Except.error e from h)).symm,
      Or.inl fun l hl => Sel.JsValue.noConfusion hl⟩
  | num q =>
    exact Or.inl ⟨(Except.error.inj
        (show Except.error (Sel.JsErr.typeError _) = Except.error e from h)).symm,
      Or.inl fun l hl => Sel.JsValue.noConfusion hl⟩
  | bool b =>
    exact Or.inl ⟨(Except.error.inj
        (show Except.error (Sel.JsErr.typeError _) = Except.error e from h)).symm,
      Or.inl fun l hl => Sel.JsValue.noConfusion hl⟩
  | null =>
    exact Or.inl ⟨(Except.error.inj
        (show Except.error (Sel.JsErr.typeError _) = Except.error e from h)).symm,
      Or.inl fun l hl => Sel.JsValue.noConfusion hl⟩
  | undef =>
    exact Or.inl ⟨(Except.error.inj
        (show Except.error (Sel.JsErr.typeError _) = Except.error e from h)).symm,
      Or.inl fun l hl => Sel.JsValue.noConfusion hl⟩

theorem Sel.select_error_classification_witness :
    Sel.select60_30_10 jsM0 (.arr [.num 5]) {} =
      .error (.typeError "Color must be a string, got number: ?") ∧
    Sel.specErrorClass jsM0 (.arr [.num 5])
      (.typeError "Color must be a string, got number: ?") :=
  ⟨by rfl,
    Sel.select_error_classification jsM0 (.arr [.num 5]) {}
      (.typeError "Color must be a string, got number: ?") (by rfl)⟩

/-- **C10.** Whenever `select60_30_10` succeeds, every role of the result whose
`derived` flag is `false` carries a hex that is the normalised lowercase
`"#rrggbb"` form of some entry of the input palette (i.e. `_normaliseHex` maps
some input entry to exactly that hex); only `derived = true` roles may carry
synthesized OKLCH colours. -/
theorem Sel.nonderived_from_input (M : JsMath) (ps : List Sel.JsValue)
    (opts : Sel.SelectOptions) (r : Sel.RuleResult)
    (h : Sel.select60_30_10 M (.arr ps) opts = .ok r) :
    (r.neutralLight.derived = false →
      ∃ v ∈ ps, Sel.normaliseHex M v = .ok r.neutralLight.hex) ∧
    (r.neutralDark.derived = false →
      ∃ v ∈ ps, Sel.normaliseHex M v = .ok r.neutralDark.hex) ∧
    (r.mainColor.derived = false →
      ∃ v ∈ ps, Sel.normaliseHex M v = .ok r.mainColor.hex) ∧
    (r.mainColorShade.derived = false →
      ∃ v ∈ ps, Sel.normaliseHex M v = .ok r.mainColorShade.hex) ∧
    (r.accentColor.derived = false →
      ∃ v ∈ ps, Sel.normaliseHex M v = .ok r.accentColor.hex) := by
  unfold Sel.select60_30_10 at h
  dsimp only at h
  split at h
  · exact Except.noConfusion (show Except.error _ = Except.ok r from h)
  · next hlen =>
    obtain ⟨px, hpx, h2⟩ := Sel.exceptBind_ok h
    obtain ⟨hlen2, hmem⟩ := Sel.mapM_normIC_ok_inv M ps px hpx
    have hpxne : px ≠ [] := by
      intro h0
      apply hlen
      rw [← hlen2, h0]
      rfl
    have hval : ∀ c ∈ px, Sel.isValidHex6 c.hex = true := by
      intro c hc
      obtain ⟨v, _, hvn⟩ := hmem c hc
      exact Sel.valid_of_normalise M v c.hex hvn
    obtain ⟨mnl, mmain, mnd, msh, mac, -⟩ :=
      Sel.pickRoles_props M (Sel.mkCfg opts) px hpxne hval
    obtain ⟨r', hr', -, -, -, -, -, e1h, -, e2h, e2d, e3h, -, e4h, e4d, e5h, e5d⟩ :=
      Sel.selectCore_spec M (Sel.mkCfg opts) px hpxne hval
    have hrr : r' = r := Except.ok.inj (hr'.symm.trans h2)
    subst hrr
    have lift : ∀ hx : String, hx ∈ px.map (fun c => c.hex) →
        ∃ v ∈ ps, Sel.normaliseHex M v = .ok hx := by
      intro hx hmm2
      obtain ⟨c, hc, hch⟩ := List.mem_map.mp hmm2
      obtain ⟨v, hv, hvn⟩ := hmem c hc
      exact ⟨v, hv, hch ▸ hvn⟩
    refine ⟨?_, ?_, ?_, ?_, ?_⟩
    · intro _
      rw [e1h]
      exact lift _ mnl
    · intro hd
      rw [e2h]
      exact lift _ (mnd (e2d.symm.trans hd))
    · intro _
      rw [e3h]
      exact lift _ mmain
    · intro hd
      rw [e4h]
      exact lift _ (msh (e4d.symm.trans hd))
    · intro hd
      rw [e5h]
      exact lift _ (mac (e5d.symm.trans hd))

set_option maxRecDepth 100000 in
unseal Rat.add Rat.sub Rat.mul Rat.inv Rat.ofScientific in
theorem Sel.nonderived_from_input_witness :
    Sel.select60_30_10 jsM0 (.arr [.str "#abc"]) {} =
      .ok (Sel.okD (Sel.select60_30_10 jsM0 (.arr [.str "#abc"]) {})) ∧
    (((Sel.okD (Sel.select60_30_10 jsM0
          (.arr [.str "#abc"]) {})).neutralLight.derived = false →
      ∃ v ∈ [Sel.JsValue.str "#abc"], Sel.normaliseHex jsM0 v =
        .ok (Sel.okD (Sel.select60_30_10 jsM0
          (.arr [.str "#abc"]) {})).neutralLight.hex) ∧
    ((Sel.okD (Sel.select60_30_10 jsM0
          (.arr [.str "#abc"]) {})).neutralDark.derived = false →
      ∃ v ∈ [Sel.JsValue.str "#abc"], Sel.normaliseHex jsM0 v =
        .ok (Sel.okD (Sel.select60_30_10 jsM0
          (.arr [.str "#abc"]) {})).neutralDark.hex) ∧
    ((Sel.okD (Sel.select60_30_10 jsM0
          (.arr [.str "#abc"]) {})).mainColor.derived = false →
      ∃ v ∈ [Sel.JsValue.str "#abc"], Sel.normaliseHex jsM0 v =
        .ok (Sel.okD (Sel.select60_30_10 jsM0
          (.arr [.str "#abc"]) {})).mainColor.hex) ∧
    ((Sel.okD (Sel.select60_30_10 jsM0
          (.arr [.str "#abc"]) {})).mainColorShade.derived = false →
      ∃ v ∈ [Sel.JsValue.str "#abc"], Sel.normaliseHex jsM0 v =
        .ok (Sel.okD (Sel.select60_30_10 jsM0
          (.arr [.str "#abc"]) {})).mainColorShade.hex) ∧
    ((Sel.okD (Sel.select60_30_10 jsM0
          (.arr [.str "#abc"]) {})).accentColor.derived = false →
      ∃ v ∈ [Sel.JsValue.str "#abc"], Sel.normaliseHex jsM0 v =
        .ok (Sel.okD (Sel.select60_30_10 jsM0
          (.arr [.str "#abc"]) {})).accentColor.hex)) :=
  ⟨by rfl,
    Sel.nonderived_from_input jsM0 [.str "#abc"] {}
      (Sel.okD (Sel.select60_30_10 jsM0 (.arr [.str "#abc"]) {})) (by rfl)⟩
